import Mathlib

/-!
Verification of the AWS provider module (providers/aws/aws_provider.py).

This file gives a shallow embedding of the module's data model and operations:
the credential-renewal wiring of `AWS_Provider`, the session bootstrap
`provider_set_session`, `validate_credentials`, `assume_role`,
`generate_regional_clients`, `send_to_security_hub` and
`resolve_security_hub_previous_findings`, together with theorems about the
properties stated in the specification.

External collaborators (botocore sessions, the STS / Security Hub endpoints,
the organizations API) are represented by explicit environment records whose
fields stand for the responses of one run.  Python exceptions caught by a
`try`/`except` block that logs and calls `sys.exit` are represented with
`Except`: the `.error` payload carries the error kind and message that the
source logs before exiting.
-/

namespace Prowler

/-- Python truthiness of an optional string: `None` and `""` are falsy. -/
def optTruthy : Option String → Bool
  | none => false
  | some s => s != ""

/-- Split a character list at every occurrence of the separator, keeping empty
segments, with the semantics of Python's `str.split(sep)` for a one-character
separator. -/
def splitOnChar (c : Char) : List Char → List (List Char)
  | [] => [[]]
  | x :: xs =>
    if x = c then [] :: splitOnChar c xs
    else
      match splitOnChar c xs with
      | [] => [[x]]
      | h :: t => (x :: h) :: t

/-- Python's `s.split(c)` for a one-character separator. -/
def splitString (c : Char) (s : String) : List String :=
  (splitOnChar c s.data).map String.mk

/-- Lexicographic comparison of character lists by code point, the order Python
uses to compare the strings handed to `sorted`. -/
def charListLe : List Char → List Char → Bool
  | [], _ => true
  | _ :: _, [] => false
  | a :: as, b :: bs =>
    if a.toNat < b.toNat then true
    else if b.toNat < a.toNat then false
    else charListLe as bs

/-- Credential record filled from an assume-role response
(providers/aws/models.AWS_Credentials, populated at aws_provider.py lines 182-189).
The expiration timestamp is modelled as a natural number of seconds. -/
structure AWS_Credentials where
  aws_access_key_id : String
  aws_secret_access_key : String
  aws_session_token : String
  expiration : Nat
deriving DecidableEq

/-- Assumed-role specification (providers/aws/models.AWS_Assume_Role): target role
identifier, requested session duration and optional external id. -/
structure AWS_Assume_Role where
  role_arn : Option String
  session_duration : Option Nat
  external_id : Option String
deriving DecidableEq

/-- The wire request of one `sts_client.assume_role(...)` call.  `ExternalId` is
`none` exactly when the keyword argument is absent from the call. -/
structure AssumeRoleRequest where
  RoleArn : String
  RoleSessionName : String
  DurationSeconds : Option Nat
  ExternalId : Option String
deriving DecidableEq

/-- The assume-role request built by `assume_role` (aws_provider.py lines 226-239):
the `ExternalId` keyword is passed only when the stored `external_id` is truthy
(in Python an empty string is falsy, so it is treated like an absent id). -/
def assumeRoleRequest (ri : AWS_Assume_Role) : AssumeRoleRequest :=
  if optTruthy ri.external_id then
    { RoleArn := ri.role_arn.getD ""
      RoleSessionName := "ProwlerProAsessmentSession"
      DurationSeconds := ri.session_duration
      ExternalId := ri.external_id }
  else
    { RoleArn := ri.role_arn.getD ""
      RoleSessionName := "ProwlerProAsessmentSession"
      DurationSeconds := ri.session_duration
      ExternalId := none }

/-- Credentials block of an STS assume-role response. -/
structure STSCredentials where
  AccessKeyId : String
  SecretAccessKey : String
  SessionToken : String
  Expiration : Nat
deriving DecidableEq

/-- An error kind (the Python exception class name) and message, as interpolated
into the `logger.critical`/`logger.error` f-strings of the source. -/
structure AwsError where
  kind : String
  msg : String
deriving DecidableEq

/-- The dictionary `AWS_Provider.refresh` would build at lines 76-83: access
key, secret key, token and the new expiry time. -/
structure RefreshedCredentials where
  access_key : String
  secret_key : String
  token : String
  expiry_time : Nat
deriving DecidableEq

/-- The attribute names an `AWS_Assume_Role` value carries: it is constructed
(lines 112-116, 137-138, 161-163) with exactly `role_arn`, `session_duration`
and `external_id`. -/
def assumeRoleAttrs : List String :=
  ["role_arn", "session_duration", "external_id"]

/-- Python attribute access on an `AWS_Assume_Role` value: any name outside its
three fields raises `AttributeError`, carrying the message Python builds for a
missing attribute. -/
def assumeRoleRecordGetAttr (attr : String) : Except AwsError Unit :=
  if assumeRoleAttrs.contains attr then
    .ok ()
  else
    .error { kind := "AttributeError",
             msg := "AWS_Assume_Role object has no attribute " ++ attr }

/-- `AWS_Provider.refresh` (aws_provider.py lines 72-86): the zero-argument
renewal callback.  Line 75 calls `assume_role(self.role_info)`, passing the
`AWS_Assume_Role` record stored at line 29 -- but `assume_role` (lines 221-245)
dereferences `audit_info.original_session` (line 224) and
`audit_info.assumed_role_info` (lines 226-238) on its argument, attributes an
`AWS_Assume_Role` does not have.  The first access raises `AttributeError`
inside `assume_role`'s `try` block, which logs critical and exits
(lines 240-242), so the callback never reaches the repackaging of lines 76-83:
every renewal ends in the fatal error modelled here. -/
def providerRefresh (role_info : AWS_Assume_Role) :
    Except AwsError RefreshedCredentials :=
  match assumeRoleRecordGetAttr "original_session" with
  | .error e => .error e
  | .ok _ =>
    .error { kind := "AttributeError",
             msg := "AWS_Assume_Role object has no attribute assumed_role_info" }

/-- State of a refreshable credential object: the currently held material, its
expiry time, and an instrumentation counter of how many times the renewal
callback has been invoked. -/
structure RefreshableState where
  access_key : String
  secret_key : String
  token : String
  expiry_time : Nat
  refresh_count : Nat
deriving DecidableEq

/-- Modelled from the spec: botocore's `RefreshableCredentials` (wired up at
aws_provider.py lines 42-49) is outside the repository.  Per spec section 4.1 the
provider hands out the wrapped material unchanged while it is unexpired, and
renews synchronously -- by one call to the supplied zero-argument callback --
before returning material whose expiration has passed.  A callback that raises
(here: returns `.error`) propagates out of the call; in the program the
`sys.exit` reached inside the callback terminates the process. -/
def currentCredentials (refresh_using : Unit → Except AwsError RefreshedCredentials)
    (now : Nat) (s : RefreshableState) : Except AwsError RefreshableState :=
  if s.expiry_time ≤ now then
    match refresh_using () with
    | .error e => .error e
    | .ok r =>
      .ok { access_key := r.access_key
            secret_key := r.secret_key
            token := r.token
            expiry_time := r.expiry_time
            refresh_count := s.refresh_count + 1 }
  else
    .ok s

/-- A regional API client as built by `generate_regional_clients`
(lines 294-297): a client bound to the audit session for one service, tagged
with its region. -/
structure RegionalClient where
  service : String
  region : String
deriving DecidableEq

/-- Python truthiness of the `audited_regions` attribute: `None` and the empty
list are falsy, so both mean "use every supported region". -/
def truthyRegions : Option (List String) → Bool
  | none => false
  | some l => !l.isEmpty

/-- `generate_regional_clients` (aws_provider.py lines 282-299).  `json_regions`
stands for `data["services"][service]["regions"][audited_partition]`, the region
catalog's supported set for the service and partition.  When the requested scope
is truthy the code takes `list(set(json_regions).intersection(audited_regions))`;
the intersection is modelled as a duplicate-free filter of the catalog list. -/
def generate_regional_clients (json_regions : List String)
    (audited_regions : Option (List String)) (service : String) :
    List RegionalClient :=
  let regions :=
    if truthyRegions audited_regions then
      (json_regions.filter (fun r => (audited_regions.getD []).contains r)).dedup
    else
      json_regions
  regions.map (fun r => { service := service, region := r })

/-- Response of `sts.get_caller_identity()`. -/
structure CallerIdentity where
  UserId : String
  Account : String
  Arn : String
deriving DecidableEq

/-- Account block of `organizations.describe_account`. -/
structure OrgAccount where
  Email : String
  Name : String
  Arn : String
deriving DecidableEq

/-- One tag of `organizations.list_tags_for_resource`. -/
structure AccountTag where
  Key : String
  Value : String
deriving DecidableEq

/-- Organization metadata record (providers/aws/models.AWS_Organizations_Info). -/
structure AWS_Organizations_Info where
  account_details_email : String
  account_details_name : String
  account_details_arn : String
  account_details_org : String
  account_details_tags : String
deriving DecidableEq

/-- The partition segment of an ARN, as extracted by the external `arnparse`
library at line 133: the second colon-delimited segment. -/
def arnPartition (arn : String) : String :=
  ((splitString ':' arn).getD 1 "")

/-- Parsed ARN fields used by `provider_set_session` (lines 195-196). -/
structure ParsedArn where
  partition : String
  account_id : String
deriving DecidableEq

/-- Modelled from the spec: `arn_parsing` (lib/arn/arn.py) is repository code that
is not among the given source files.  Per the spec's data model and glossary it
validates the role identifier and exposes the partition and account-id segments
of the colon-delimited ARN (`arn:partition:service:region:account:resource`),
raising -- here, returning an error -- on a malformed identifier. -/
def arn_parsing (arn : String) : Except AwsError ParsedArn :=
  let parts := splitString ':' arn
  if parts.length < 6 then
    .error { kind := "Exception", msg := "invalid role arn" }
  else
    .ok { partition := parts.getD 1 "", account_id := parts.getD 4 "" }

/-- Environment of one bootstrap run: the responses of the external endpoints
consulted by `provider_set_session` and its helpers. -/
structure AwsEnv where
  sessionFailure : Option AwsError
  getCallerIdentity : Except AwsError CallerIdentity
  stsAssumeRole : AssumeRoleRequest → Except AwsError STSCredentials
  describeAccount : Except AwsError OrgAccount
  listTagsForResource : Except AwsError (List AccountTag)
  sessionRegionName : Option String

/-- A boto3 session value.  `AWS_Provider.set_session` builds either a plain
profile session (line 64) or a session wrapping refreshable assumed-role
credentials (lines 42-60); the two are distinct objects. -/
inductive Session where
  | original (profile : Option String)
  | assumed (credentials : AWS_Credentials) (profile_region : Option String)
      (profile : Option String)
deriving DecidableEq

/-- `AWS_Provider.set_session` (lines 34-67): with a filled credentials object the
session wraps refreshable assumed-role credentials, otherwise it is a plain
profile session.  Any exception is logged critical and exits, modelled by the
environment's `sessionFailure`. -/
def set_session (sessionFailure : Option AwsError) (profile : Option String)
    (profile_region : Option String) (credentials : Option AWS_Credentials) :
    Except AwsError Session :=
  match sessionFailure with
  | some e => .error e
  | none =>
    match credentials with
    | some c => .ok (.assumed c profile_region profile)
    | none => .ok (.original profile)

/-- `validate_credentials` (lines 210-218): one `get_caller_identity` call; a
failure is logged critical and exits (the `.error` payload), a success is
returned unchanged. -/
def validate_credentials (getCallerIdentity : Except AwsError CallerIdentity) :
    Except AwsError CallerIdentity :=
  match getCallerIdentity with
  | .error e => .error e
  | .ok caller_identity => .ok caller_identity

/-- `assume_role` (lines 221-245): one STS assume-role call with the request of
`assumeRoleRequest`; a failure is logged critical and exits. -/
def assume_role (sts : AssumeRoleRequest → Except AwsError STSCredentials)
    (role_info : AWS_Assume_Role) : Except AwsError STSCredentials :=
  match sts (assumeRoleRequest role_info) with
  | .error e => .error e
  | .ok assumed_credentials => .ok assumed_credentials

/-- `get_organizations_metadata` (lines 248-279): describe the account, list its
tags, and join the tags into one `key:value,` concatenated string. -/
def get_organizations_metadata (describeAccount : Except AwsError OrgAccount)
    (listTagsForResource : Except AwsError (List AccountTag)) :
    Except AwsError AWS_Organizations_Info :=
  match describeAccount with
  | .error e => .error e
  | .ok account =>
    match listTagsForResource with
    | .error e => .error e
    | .ok tags =>
      let account_details_tags :=
        tags.foldl (fun s t => s ++ t.Key ++ ":" ++ t.Value ++ ",") ""
      .ok { account_details_email := account.Email
            account_details_name := account.Name
            account_details_arn := account.Arn
            account_details_org := ((splitString '/' account.Arn).getD 1 "")
            account_details_tags := account_details_tags }

/-- The CLI-level inputs of `provider_set_session` (line 89). -/
structure ProviderArgs where
  input_profile : Option String
  input_role : Option String
  input_session_duration : Option Nat
  input_external_id : Option String
  input_regions : Option (List String)
  organizations_role_arn : Option String
deriving DecidableEq

/-- The audit-info record as it stands when `provider_set_session` returns
(providers/aws/models.AWS_Audit_Info). -/
structure AWS_Audit_Info where
  original_session : Session
  audit_session : Session
  audited_account : String
  audited_partition : String
  profile : Option String
  profile_region : Option String
  credentials : Option AWS_Credentials
  assumed_role_info : AWS_Assume_Role
  audited_regions : Option (List String)
  organizations_metadata : Option AWS_Organizations_Info
deriving DecidableEq

/-- The organizations link of `provider_set_session` (lines 135-157): when an
organizations role arn is configured, validate the arn, assume the role and fetch
the organization metadata; any failure exits.  Returns the metadata (if fetched)
and the `assumed_role_info` record as mutated so far. -/
def orgStep (env : AwsEnv) (a : ProviderArgs) :
    Except AwsError (Option AWS_Organizations_Info × AWS_Assume_Role) :=
  if optTruthy a.organizations_role_arn then
    let role_info : AWS_Assume_Role :=
      { role_arn := a.organizations_role_arn
        session_duration := a.input_session_duration
        external_id := none }
    match arn_parsing (a.organizations_role_arn.getD "") with
    | .error e => .error e
    | .ok _ =>
      match assume_role env.stsAssumeRole role_info with
      | .error e => .error e
      | .ok _ =>
        match get_organizations_metadata env.describeAccount env.listTagsForResource with
        | .error e => .error e
        | .ok m => .ok (some m, role_info)
  else
    .ok (none, { role_arn := none, session_duration := none, external_id := none })

/-- The workload link of `provider_set_session` (lines 159-190): when an input
role is configured, validate the arn, assume the role, and build the assumed
session from the response credentials; any failure exits.  Returns the assumed
session together with the parsed role arn and credentials, and the
`assumed_role_info` record as mutated so far. -/
def roleStep (env : AwsEnv) (a : ProviderArgs) (prev_role_info : AWS_Assume_Role) :
    Except AwsError (Option (Session × ParsedArn × AWS_Credentials) × AWS_Assume_Role) :=
  if optTruthy a.input_role then
    let role_info : AWS_Assume_Role :=
      { role_arn := a.input_role
        session_duration := a.input_session_duration
        external_id := a.input_external_id }
    match arn_parsing (a.input_role.getD "") with
    | .error e => .error e
    | .ok role_arn_parsed =>
      match assume_role env.stsAssumeRole role_info with
      | .error e => .error e
      | .ok resp =>
        let creds : AWS_Credentials :=
          { aws_access_key_id := resp.AccessKeyId
            aws_secret_access_key := resp.SecretAccessKey
            aws_session_token := resp.SessionToken
            expiration := resp.Expiration }
        match set_session env.sessionFailure a.input_profile none (some creds) with
        | .error e => .error e
        | .ok assumed_session =>
          .ok (some (assumed_session, role_arn_parsed, creds), role_info)
  else
    .ok (none, prev_role_info)

/-- `provider_set_session` (lines 89-207): build and validate the original
session, optionally run the organizations link, optionally run the workload
link, then pick the audit session (the assumed session if one was produced,
else the original), the audited account/partition attribution, and the default
region (the session's region or the `us-east-1` fallback). -/
def provider_set_session (env : AwsEnv) (a : ProviderArgs) :
    Except AwsError AWS_Audit_Info :=
  match set_session env.sessionFailure a.input_profile none none with
  | .error e => .error e
  | .ok original_session =>
    match validate_credentials env.getCallerIdentity with
    | .error e => .error e
    | .ok caller_identity =>
      match orgStep env a with
      | .error e => .error e
      | .ok (organizations_metadata, role_info₁) =>
        match roleStep env a role_info₁ with
        | .error e => .error e
        | .ok (assumed, role_info₂) =>
          match assumed with
          | some (assumed_session, role_arn_parsed, creds) =>
            .ok { original_session := original_session
                  audit_session := assumed_session
                  audited_account := role_arn_parsed.account_id
                  audited_partition := role_arn_parsed.partition
                  profile := a.input_profile
                  profile_region := some (env.sessionRegionName.getD "us-east-1")
                  credentials := some creds
                  assumed_role_info := role_info₂
                  audited_regions := a.input_regions
                  organizations_metadata := organizations_metadata }
          | none =>
            .ok { original_session := original_session
                  audit_session := original_session
                  audited_account := caller_identity.Account
                  audited_partition := arnPartition caller_identity.Arn
                  profile := a.input_profile
                  profile_region := some (env.sessionRegionName.getD "us-east-1")
                  credentials := none
                  assumed_role_info := role_info₂
                  audited_regions := a.input_regions
                  organizations_metadata := organizations_metadata }

/-- One record of the current run's json-asff findings file, restricted to the
fields the reconciliation reads: `ProductArn` (line 345-350) and `Id` (line 360). -/
structure AsffFinding where
  ProductArn : String
  Id : String
deriving DecidableEq

/-- A finding as stored in Security Hub, restricted to the fields read by the
reconciliation filter (lines 365-372) and mutated on archival (lines 379-382). -/
structure SHFinding where
  Id : String
  ProductArn : String
  ProductName : String
  RecordState : String
  AwsAccountId : String
  Region : String
  UpdatedAt : String
deriving DecidableEq

/-- The finding-store contents of one region-agnostic Security Hub view: the
records a `get_findings` pagination can return, before filtering. -/
abbrev Store := List SHFinding

/-- One entry of a `batch_import_findings` failure report. -/
structure FailedFinding where
  Id : String
  ErrorCode : String
  ErrorMessage : String
deriving DecidableEq

/-- Response of `batch_import_findings`. -/
structure ImportResult where
  FailedCount : Nat
  FailedFindings : List FailedFinding
deriving DecidableEq

/-- The error-level log entries the reconciliation code can produce: a failed
batch import (lines 396-399, 323-327), a caught per-region exception
(line 401, line 330), and the integration warning of lines 315-317. -/
inductive LogEntry where
  | batchFailed (errorCode errorMessage : String)
  | regionError (kind msg region : String)
  | integrationWarning (region : String)
deriving DecidableEq

/-- Environment of one reconciliation run: the Security Hub endpoint responses. -/
structure HubEnv where
  describeHub : String → Except AwsError Unit
  prowlerIntegration : String → Bool
  batchImport : List SHFinding → ImportResult

/-- Ordering of findings-file records by their `ProductArn` key, as used by
`sorted(json_asff_file, key=itemgetter("ProductArn"))` at line 345. -/
def arnLe (a b : AsffFinding) : Prop :=
  charListLe a.ProductArn.data b.ProductArn.data = true

instance : DecidableRel arnLe :=
  fun a b =>
    inferInstanceAs (Decidable (charListLe a.ProductArn.data b.ProductArn.data = true))

/-- The sort of line 345: a stable sort of the findings file by `ProductArn`. -/
def sortByArn (l : List AsffFinding) : List AsffFinding :=
  l.insertionSort arnLe

/-- Longest prefix of `l` whose records all carry `ProductArn = k`, together with
the remaining suffix. -/
def spanKey (k : String) : List AsffFinding → List AsffFinding × List AsffFinding
  | [] => ([], [])
  | x :: xs =>
    if x.ProductArn == k then
      let p := spanKey k xs
      (x :: p.1, p.2)
    else
      ([], x :: xs)

/-- Fuel-indexed worker for `groupByArn`; the fuel bounds the recursion depth and
is never exhausted when it starts at the list length. -/
def groupByArnAux : Nat → List AsffFinding → List (List AsffFinding)
  | 0, _ => []
  | _, [] => []
  | fuel + 1, x :: xs =>
    let p := spanKey x.ProductArn xs
    (x :: p.1) :: groupByArnAux fuel p.2

/-- `itertools.groupby(json_asff_file, key=itemgetter("ProductArn"))` at lines
347-349: the maximal runs of consecutive records sharing a `ProductArn`. -/
def groupByArn (l : List AsffFinding) : List (List AsffFinding) :=
  groupByArnAux l.length l

/-- `region = product_arn.split(":")[3]` at line 350. -/
def regionOfArn (product_arn : String) : String :=
  ((splitString ':' product_arn).getD 3 "")

/-- The groupby key of a group: the `ProductArn` its members share. -/
def groupArn : List AsffFinding → String
  | [] => ""
  | x :: _ => x.ProductArn

/-- The `get_findings` filter of lines 365-372: Prowler product, ACTIVE record
state, the audited account and the group's region. -/
def matchesFilter (account region : String) (f : SHFinding) : Bool :=
  f.ProductName == "Prowler" && f.RecordState == "ACTIVE" &&
    f.AwsAccountId == account && f.Region == region

/-- The archival mutation of lines 379-382: set the record state to ARCHIVED and
the update timestamp to the run's UTC timestamp. -/
def archiveFinding (now : String) (f : SHFinding) : SHFinding :=
  { f with RecordState := "ARCHIVED", UpdatedAt := now }

/-- The `findings_to_archive` accumulation of lines 373-384: the stored findings
matching the filter whose Id did not occur among this group's current findings,
with state and timestamp rewritten. -/
def findingsToArchive (account region now : String) (ids : List String)
    (store : Store) : List SHFinding :=
  ((store.filter (matchesFilter account region)).filter
      (fun f => !(ids.contains f.Id))).map (archiveFinding now)

/-- The batching of lines 387-390,
`[l[i:i+n] for i in range(0, len(l), n)]`: slices of width `n` starting at the
multiples of `n` below the length. -/
def chunksOf (n : Nat) (l : List α) : List (List α) :=
  (List.range' 0 ((l.length + n - 1) / n) n).map (fun i => (l.drop i).take n)

/-- The findings a `batch_import_findings` call actually imports: the batch
minus the findings the service reported as failed. -/
def importedOfBatch (res : ImportResult) (batch : List SHFinding) : List SHFinding :=
  batch.filter (fun f => !(res.FailedFindings.any (fun x => x.Id == f.Id)))

/-- Effect of one import on the stored findings: `BatchImportFindings` updates
findings by identifier, so each stored record whose Id occurs in the imported
list is replaced by the imported record. -/
def applyImportBatch (imported : List SHFinding) (store : Store) : Store :=
  store.map (fun f =>
    match imported.find? (fun g => g.Id == f.Id) with
    | some g => g
    | none => f)

/-- Result of the submission loop over one group's batches. -/
structure SubmitResult where
  submitted : List (List SHFinding)
  logs : List LogEntry
  store : Store
  err : Option AwsError
deriving Inhabited

/-- The submission loop of lines 391-399: import each batch in order; when a
call reports failures, log one error built from the first failed finding.
Because the code indexes `FailedFindings[0]`, a failure report with an empty
list raises an IndexError that escapes the loop; it is carried as the optional
error of the result (to be caught by the per-region handler). -/
def submitBatches (env : HubEnv) :
    Store → List (List SHFinding) → SubmitResult
  | store, [] => ⟨[], [], store, none⟩
  | store, batch :: rest =>
    let res := env.batchImport batch
    let store₁ := applyImportBatch (importedOfBatch res batch) store
    if 0 < res.FailedCount then
      match res.FailedFindings with
      | [] =>
        ⟨[batch], [], store₁,
          some { kind := "IndexError", msg := "list index out of range" }⟩
      | failed_import :: _ =>
        let r := submitBatches env store₁ rest
        ⟨batch :: r.submitted,
          .batchFailed failed_import.ErrorCode failed_import.ErrorMessage :: r.logs,
          r.store, r.err⟩
    else
      let r := submitBatches env store₁ rest
      ⟨batch :: r.submitted, r.logs, r.store, r.err⟩

/-- Per-group outcome of the reconciliation loop. -/
structure GroupResult where
  region : String
  hubOk : Bool
  currentIds : List String
  toArchive : List SHFinding
  submitted : List (List SHFinding)
  logs : List LogEntry
deriving DecidableEq

/-- The body of the per-group loop of lines 347-401: parse the region from the
group key, check the hub, collect the group's current finding ids, compute the
archival candidates against the store, and submit them in batches of 100.  Any
caught exception (hub not enabled; the IndexError of an ill-formed failure
report) is logged as a region error and processing moves to the next group. -/
def processGroup (env : HubEnv) (account now : String) (store : Store)
    (g : List AsffFinding) : GroupResult × Store :=
  let region := regionOfArn (groupArn g)
  match env.describeHub region with
  | .error e =>
    ({ region := region, hubOk := false, currentIds := [], toArchive := [],
       submitted := [], logs := [.regionError e.kind e.msg region] }, store)
  | .ok _ =>
    let current_findings_ids := g.map (fun f => f.Id)
    let findings_to_archive :=
      findingsToArchive account region now current_findings_ids store
    let r := submitBatches env store (chunksOf 100 findings_to_archive)
    ({ region := region, hubOk := true, currentIds := current_findings_ids,
       toArchive := findings_to_archive, submitted := r.submitted,
       logs := r.logs ++
         (match r.err with
          | some e => [.regionError e.kind e.msg region]
          | none => []) }, r.store)

/-- The loop over all groups, threading the store. -/
def runGroups (env : HubEnv) (account now : String) :
    Store → List (List AsffFinding) → List GroupResult × Store
  | store, [] => ([], store)
  | store, g :: gs =>
    let p := processGroup env account now store g
    let r := runGroups env account now p.2 gs
    (p.1 :: r.1, r.2)

/-- `resolve_security_hub_previous_findings` (lines 334-401), with the findings
file contents passed in and the Security Hub store threaded explicitly: sort the
current findings by `ProductArn`, group them, and reconcile group by group. -/
def resolve_security_hub_previous_findings (env : HubEnv) (account now : String)
    (store : Store) (json_asff_file : List AsffFinding) :
    List GroupResult × Store :=
  runGroups env account now store (groupByArn (sortByArn json_asff_file))

/-- Regions for which a run issued a store query, with multiplicity: one query
per group whose `describe_hub` check succeeded. -/
def queriedRegions (results : List GroupResult) : List String :=
  (results.filter (fun r => r.hubOk)).map (fun r => r.region)

/-- All findings a run marked archived. -/
def archivedOfRun (results : List GroupResult) : List SHFinding :=
  (results.map (fun r => r.toArchive)).flatten

/-- `send_to_security_hub` (lines 302-330): check the hub, warn when the Prowler
integration is not enabled, import the single finding, and on a reported failure
log one error built from the first failed finding; an escaped exception is
caught and logged with the region.  Only the produced log entries are
modelled. -/
def send_to_security_hub (env : HubEnv) (region : String) (finding : SHFinding) :
    List LogEntry :=
  match env.describeHub region with
  | .error e => [.regionError e.kind e.msg region]
  | .ok _ =>
    let warn : List LogEntry :=
      if env.prowlerIntegration region then [] else [.integrationWarning region]
    let res := env.batchImport [finding]
    if 0 < res.FailedCount then
      match res.FailedFindings with
      | [] => warn ++ [.regionError "IndexError" "list index out of range" region]
      | failed_import :: _ =>
        warn ++ [.batchFailed failed_import.ErrorCode failed_import.ErrorMessage]
    else
      warn

/-- Whether the `describe_hub` probe succeeds for a region (the region's hub is
enabled and reachable). -/
def hubEnabled (env : HubEnv) (region : String) : Bool :=
  match env.describeHub region with
  | .ok _ => true
  | .error _ => false

/-- Identifiers of the current-run findings whose `ProductArn` parses to the
given region: the per-region id set the specification speaks about. -/
def regionIds (r : String) (current : List AsffFinding) : List String :=
  (current.filter (fun f => regionOfArn f.ProductArn == r)).map (fun f => f.Id)

/-- The one log entry a failure report produces: built from the first failed
finding only (lines 396-399); `none` when the import reported no failure or the
report is ill-formed (empty failed list). -/
def failedBatchLog (res : ImportResult) : Option LogEntry :=
  if 0 < res.FailedCount then
    match res.FailedFindings with
    | [] => none
    | fi :: _ => some (.batchFailed fi.ErrorCode fi.ErrorMessage)
  else
    none

/-- Well-formedness of the import endpoint: a failure report with a positive
failed count names at least one failed finding (the AWS API contract the code's
`FailedFindings[0]` indexing relies on). -/
def wfImports (env : HubEnv) : Prop :=
  ∀ b, 0 < (env.batchImport b).FailedCount →
    (env.batchImport b).FailedFindings ≠ []

/-- All import calls of the environment succeed outright. -/
def successImports (env : HubEnv) : Prop :=
  ∀ b, env.batchImport b = { FailedCount := 0, FailedFindings := [] }

theorem charListLe_total : ∀ l₁ l₂, charListLe l₁ l₂ = true ∨ charListLe l₂ l₁ = true := by
  intro l₁
  induction l₁ with
  | nil => intro l₂; exact Or.inl rfl
  | cons a as ih =>
    intro l₂
    cases l₂ with
    | nil => exact Or.inr rfl
    | cons b bs =>
      simp only [charListLe]
      rcases Nat.lt_trichotomy a.toNat b.toNat with h | h | h
      · left; rw [if_pos h]
      · rw [if_neg (by omega), if_neg (by omega), if_neg (by omega),
          if_neg (by omega)]
        exact ih bs
      · right; rw [if_pos h]

theorem charListLe_trans : ∀ l₁ l₂ l₃, charListLe l₁ l₂ = true →
    charListLe l₂ l₃ = true → charListLe l₁ l₃ = true := by
  intro l₁
  induction l₁ with
  | nil => intro l₂ l₃ _ _; rfl
  | cons a as ih =>
    intro l₂ l₃ h₁₂ h₂₃
    cases l₂ with
    | nil => simp [charListLe] at h₁₂
    | cons b bs =>
      cases l₃ with
      | nil => simp [charListLe] at h₂₃
      | cons c cs =>
        simp only [charListLe] at h₁₂ h₂₃ ⊢
        rcases Nat.lt_trichotomy a.toNat b.toNat with hab | hab | hab
        · rcases Nat.lt_trichotomy b.toNat c.toNat with hbc | hbc | hbc
          · rw [if_pos (by omega)]
          · rw [if_pos (by omega)]
          · rw [if_pos hbc, if_neg (by omega)] at h₂₃
            exact absurd h₂₃ (by simp)
        · rcases Nat.lt_trichotomy b.toNat c.toNat with hbc | hbc | hbc
          · rw [if_pos (by omega)]
          · rw [if_neg (by omega), if_neg (by omega)]
            rw [if_neg (by omega), if_neg (by omega)] at h₁₂ h₂₃
            exact ih bs cs h₁₂ h₂₃
          · rw [if_pos hbc, if_neg (by omega)] at h₂₃
            exact absurd h₂₃ (by simp)
        · rw [if_pos hab, if_neg (by omega)] at h₁₂
          exact absurd h₁₂ (by simp)

theorem charListLe_antisymm : ∀ l₁ l₂, charListLe l₁ l₂ = true →
    charListLe l₂ l₁ = true → l₁ = l₂ := by
  intro l₁
  induction l₁ with
  | nil =>
    intro l₂ _ h₂₁
    cases l₂ with
    | nil => rfl
    | cons b bs => simp [charListLe] at h₂₁
  | cons a as ih =>
    intro l₂ h₁₂ h₂₁
    cases l₂ with
    | nil => simp [charListLe] at h₁₂
    | cons b bs =>
      simp only [charListLe] at h₁₂ h₂₁
      rcases Nat.lt_trichotomy a.toNat b.toNat with hab | hab | hab
      · rw [if_pos hab, if_neg (by omega)] at h₂₁
        exact absurd h₂₁ (by simp)
      · rw [if_neg (by omega), if_neg (by omega)] at h₁₂ h₂₁
        have hchar : a = b := Char.eq_of_val_eq (UInt32.ext hab)
        rw [hchar, ih bs h₁₂ h₂₁]
      · rw [if_pos hab, if_neg (by omega)] at h₁₂
        exact absurd h₁₂ (by simp)

instance : IsTotal AsffFinding arnLe :=
  ⟨fun a b => charListLe_total a.ProductArn.data b.ProductArn.data⟩

instance : IsTrans AsffFinding arnLe :=
  ⟨fun _ _ _ h h₂ => charListLe_trans _ _ _ h h₂⟩

theorem arnLe_antisymm {a b : AsffFinding} (h : arnLe a b) (h₂ : arnLe b a) :
    a.ProductArn = b.ProductArn := by
  have hdata := charListLe_antisymm _ _ h h₂
  cases ha : a.ProductArn with
  | mk da =>
    cases hb : b.ProductArn with
    | mk db =>
      rw [ha, hb] at hdata
      simp only at hdata
      rw [hdata]

theorem chunksOf_nil (n : Nat) : chunksOf n ([] : List α) = [] := by
  have h : (n - 1) / n = 0 := by
    rcases n with _ | m
    · simp
    · exact Nat.div_eq_of_lt (by omega)
  simp [chunksOf, h]

theorem length_le_of_mem_chunksOf {n : Nat} {l c : List α}
    (hc : c ∈ chunksOf n l) : c.length ≤ n := by
  simp only [chunksOf, List.mem_map] at hc
  obtain ⟨i, -, rfl⟩ := hc
  simp

theorem mem_of_mem_chunksOf {n : Nat} {l c : List α} {x : α}
    (hc : c ∈ chunksOf n l) (hx : x ∈ c) : x ∈ l := by
  simp only [chunksOf, List.mem_map] at hc
  obtain ⟨i, -, rfl⟩ := hc
  exact List.drop_subset i l (List.take_subset n (l.drop i) hx)

theorem chunksOf_shift (n : Nat) (l : List α) :
    ∀ (c s : Nat),
      (List.range' (s + n) c n).map (fun i => (l.drop i).take n) =
        (List.range' s c n).map (fun i => ((l.drop n).drop i).take n) := by
  intro c
  induction c with
  | zero => intro s; rfl
  | succ c ih =>
    intro s
    rw [List.range'_succ, List.range'_succ]
    simp only [List.map_cons]
    refine congrArg₂ _ ?_ (ih (s + n))
    rw [List.drop_drop, Nat.add_comm n s]

theorem chunksOf_cons (n : Nat) (hn : 0 < n) (l : List α) (hl : l ≠ []) :
    chunksOf n l = l.take n :: chunksOf n (l.drop n) := by
  have hL : 1 ≤ l.length := List.length_pos.mpr hl
  have hcount : (l.length + n - 1) / n = ((l.drop n).length + n - 1) / n + 1 := by
    rw [List.length_drop]
    rcases le_or_lt l.length n with h | h
    · have h₀ : l.length - n = 0 := by omega
      have h₁ : l.length + n - 1 = (l.length - 1) + n := by omega
      have h₂ : (l.length - 1) / n = 0 := Nat.div_eq_of_lt (by omega)
      have h₃ : (0 + n - 1) / n = 0 := Nat.div_eq_of_lt (by omega)
      rw [h₀, h₁, Nat.add_div_right _ hn, h₂, h₃]
    · have h₁ : l.length + n - 1 = (l.length - 1) + n := by omega
      have h₂ : l.length - n + n - 1 = l.length - 1 := by omega
      rw [h₂, h₁, Nat.add_div_right _ hn]
  show (List.range' 0 ((l.length + n - 1) / n) n).map (fun i => (l.drop i).take n) = _
  rw [hcount, List.range'_succ]
  simp only [List.map_cons, List.drop_zero]
  refine congrArg₂ _ rfl ?_
  have hshift := chunksOf_shift n l (((l.drop n).length + n - 1) / n) 0
  rw [hshift]
  rfl

theorem chunksOf_flatten_aux (n : Nat) (hn : 0 < n) :
    ∀ (fuel : Nat) (l : List α), l.length ≤ fuel → (chunksOf n l).flatten = l := by
  intro fuel
  induction fuel with
  | zero =>
    intro l hl
    have : l = [] := List.length_eq_zero.mp (by omega)
    subst this
    rw [chunksOf_nil]
    rfl
  | succ fuel ih =>
    intro l hl
    rcases eq_or_ne l [] with rfl | hne
    · rw [chunksOf_nil]; rfl
    · rw [chunksOf_cons n hn l hne, List.flatten_cons]
      have hlen : (l.drop n).length ≤ fuel := by
        have := List.length_pos.mpr hne
        rw [List.length_drop]
        omega
      rw [ih (l.drop n) hlen, List.take_append_drop]

theorem chunksOf_flatten (n : Nat) (hn : 0 < n) (l : List α) :
    (chunksOf n l).flatten = l :=
  chunksOf_flatten_aux n hn l.length l le_rfl

theorem spanKey_append (k : String) :
    ∀ l : List AsffFinding, (spanKey k l).1 ++ (spanKey k l).2 = l := by
  intro l
  induction l with
  | nil => rfl
  | cons x xs ih =>
    cases h : x.ProductArn == k with
    | true => simp [spanKey, h, ih]
    | false => simp [spanKey, h]

theorem spanKey_fst_key (k : String) :
    ∀ l : List AsffFinding, ∀ x ∈ (spanKey k l).1, x.ProductArn = k := by
  intro l
  induction l with
  | nil => intro x hx; cases hx
  | cons y ys ih =>
    intro x hx
    cases h : y.ProductArn == k with
    | true =>
      simp only [spanKey, h, if_pos] at hx
      rcases List.mem_cons.mp hx with rfl | hx₂
      · exact eq_of_beq h
      · exact ih x hx₂
    | false => simp [spanKey, h] at hx

theorem spanKey_snd_sublist (k : String) (l : List AsffFinding) :
    List.Sublist (spanKey k l).2 l := by
  conv_rhs => rw [← spanKey_append k l]
  exact List.sublist_append_right _ _

theorem spanKey_snd_length (k : String) (l : List AsffFinding) :
    (spanKey k l).2.length ≤ l.length :=
  (spanKey_snd_sublist k l).length_le

theorem spanKey_snd_cases (k : String) (l : List AsffFinding) :
    (spanKey k l).2 = [] ∨
      ∃ y ys, (spanKey k l).2 = y :: ys ∧ y.ProductArn ≠ k := by
  induction l with
  | nil => exact Or.inl rfl
  | cons x xs ih =>
    cases h : x.ProductArn == k with
    | true => simpa [spanKey, h] using ih
    | false =>
      refine Or.inr ⟨x, xs, ?_, ?_⟩
      · simp [spanKey, h]
      · simpa using h

theorem groupByArnAux_congr :
    ∀ (fuel fuel₂ : Nat) (l : List AsffFinding), l.length ≤ fuel → l.length ≤ fuel₂ →
      groupByArnAux fuel l = groupByArnAux fuel₂ l := by
  intro fuel
  induction fuel with
  | zero =>
    intro fuel₂ l h h₂
    have : l = [] := List.length_eq_zero.mp (by omega)
    subst this
    cases fuel₂ <;> rfl
  | succ fuel ih =>
    intro fuel₂ l h h₂
    cases l with
    | nil => cases fuel₂ <;> rfl
    | cons x xs =>
      cases fuel₂ with
      | zero => simp at h₂
      | succ fuel₂ =>
        simp only [groupByArnAux]
        refine congrArg₂ _ rfl ?_
        have hx : (spanKey x.ProductArn xs).2.length ≤ xs.length :=
          spanKey_snd_length _ _
        simp only [List.length_cons] at h h₂
        exact ih fuel₂ _ (by omega) (by omega)

theorem groupByArn_cons (x : AsffFinding) (xs : List AsffFinding) :
    groupByArn (x :: xs) =
      (x :: (spanKey x.ProductArn xs).1) ::
        groupByArn (spanKey x.ProductArn xs).2 := by
  show groupByArnAux (xs.length + 1) (x :: xs) = _
  simp only [groupByArnAux]
  refine congrArg₂ _ rfl ?_
  exact groupByArnAux_congr xs.length _ _ (spanKey_snd_length _ _) le_rfl

theorem groupByArn_flatten_aux :
    ∀ (fuel : Nat) (l : List AsffFinding), l.length ≤ fuel →
      (groupByArn l).flatten = l := by
  intro fuel
  induction fuel with
  | zero =>
    intro l h
    have : l = [] := List.length_eq_zero.mp (by omega)
    subst this
    rfl
  | succ fuel ih =>
    intro l h
    cases l with
    | nil => rfl
    | cons x xs =>
      rw [groupByArn_cons, List.flatten_cons]
      have hlen : (spanKey x.ProductArn xs).2.length ≤ fuel := by
        have := spanKey_snd_length x.ProductArn xs
        simp only [List.length_cons] at h
        omega
      rw [ih _ hlen, List.cons_append, spanKey_append]

theorem groupByArn_flatten (l : List AsffFinding) : (groupByArn l).flatten = l :=
  groupByArn_flatten_aux l.length l le_rfl

theorem mem_of_mem_groupByArn {l : List AsffFinding} {g : List AsffFinding}
    (hg : g ∈ groupByArn l) {y : AsffFinding} (hy : y ∈ g) : y ∈ l := by
  rw [← groupByArn_flatten l]
  exact List.mem_flatten.mpr ⟨g, hg, hy⟩

theorem exists_group_of_mem {l : List AsffFinding} {y : AsffFinding}
    (hy : y ∈ l) : ∃ g ∈ groupByArn l, y ∈ g := by
  rw [← groupByArn_flatten l] at hy
  exact List.mem_flatten.mp hy

theorem key_of_mem_groupByArn :
    ∀ (fuel : Nat) (l : List AsffFinding), l.length ≤ fuel →
      ∀ g ∈ groupByArn l, ∀ y ∈ g, y.ProductArn = groupArn g := by
  intro fuel
  induction fuel with
  | zero =>
    intro l h
    have : l = [] := List.length_eq_zero.mp (by omega)
    subst this
    intro g hg; cases hg
  | succ fuel ih =>
    intro l h g hg y hy
    cases l with
    | nil => cases hg
    | cons x xs =>
      rw [groupByArn_cons] at hg
      rcases List.mem_cons.mp hg with rfl | hg₂
      · show y.ProductArn = x.ProductArn
        rcases List.mem_cons.mp hy with rfl | hy₂
        · rfl
        · exact spanKey_fst_key x.ProductArn xs y hy₂
      · have hlen : (spanKey x.ProductArn xs).2.length ≤ fuel := by
          have := spanKey_snd_length x.ProductArn xs
          simp only [List.length_cons] at h
          omega
        exact ih _ hlen g hg₂ y hy

theorem ne_nil_of_mem_groupByArn :
    ∀ (fuel : Nat) (l : List AsffFinding), l.length ≤ fuel →
      ∀ g ∈ groupByArn l, g ≠ [] := by
  intro fuel
  induction fuel with
  | zero =>
    intro l h
    have : l = [] := List.length_eq_zero.mp (by omega)
    subst this
    intro g hg; cases hg
  | succ fuel ih =>
    intro l h g hg
    cases l with
    | nil => cases hg
    | cons x xs =>
      rw [groupByArn_cons] at hg
      rcases List.mem_cons.mp hg with rfl | hg₂
      · simp
      · have hlen : (spanKey x.ProductArn xs).2.length ≤ fuel := by
          have := spanKey_snd_length x.ProductArn xs
          simp only [List.length_cons] at h
          omega
        exact ih _ hlen g hg₂

theorem exists_key_elem {l g : List AsffFinding} (hg : g ∈ groupByArn l) :
    ∃ y ∈ l, groupArn g = y.ProductArn := by
  have hne := ne_nil_of_mem_groupByArn l.length l le_rfl g hg
  cases g with
  | nil => exact absurd rfl hne
  | cons y ys =>
    refine ⟨y, mem_of_mem_groupByArn hg (List.mem_cons_self y ys), ?_⟩
    exact (key_of_mem_groupByArn l.length l le_rfl _ hg y
      (List.mem_cons_self y ys)).symm

theorem mem_sortByArn {l : List AsffFinding} {x : AsffFinding} :
    x ∈ sortByArn l ↔ x ∈ l :=
  List.mem_insertionSort arnLe

theorem sorted_sortByArn (l : List AsffFinding) :
    List.Sorted arnLe (sortByArn l) :=
  List.sorted_insertionSort arnLe l

theorem spanKey_snd_key_ne {x : AsffFinding} {xs : List AsffFinding}
    (h : List.Sorted arnLe (x :: xs)) :
    ∀ y ∈ (spanKey x.ProductArn xs).2, y.ProductArn ≠ x.ProductArn := by
  intro y hy hcontra
  rcases spanKey_snd_cases x.ProductArn xs with hnil | ⟨y₀, ys, heq, hne⟩
  · rw [hnil] at hy; cases hy
  · have hxs : List.Sorted arnLe xs := h.of_cons
    have hs₂ : List.Sorted arnLe (spanKey x.ProductArn xs).2 :=
      List.Pairwise.sublist (spanKey_snd_sublist _ _) hxs
    rw [heq] at hs₂ hy
    have hy₀mem : y₀ ∈ xs :=
      (spanKey_snd_sublist x.ProductArn xs).subset
        (heq ▸ List.mem_cons_self y₀ ys)
    have hxy₀ : arnLe x y₀ := List.rel_of_sorted_cons h y₀ hy₀mem
    rcases List.mem_cons.mp hy with rfl | hmem
    · exact hne hcontra
    · have hy₀y : arnLe y₀ y := List.rel_of_sorted_cons hs₂ y hmem
      have hy₀x : arnLe y₀ x := by
        unfold arnLe at hy₀y ⊢
        rw [← hcontra]
        exact hy₀y
      exact hne (arnLe_antisymm hy₀x hxy₀)

theorem groupByArn_pairwise_key :
    ∀ (fuel : Nat) (l : List AsffFinding), l.length ≤ fuel →
      List.Sorted arnLe l →
      (groupByArn l).Pairwise (fun g g₂ => groupArn g ≠ groupArn g₂) := by
  intro fuel
  induction fuel with
  | zero =>
    intro l h hs
    have : l = [] := List.length_eq_zero.mp (by omega)
    subst this
    exact List.Pairwise.nil
  | succ fuel ih =>
    intro l h hs
    cases l with
    | nil => exact List.Pairwise.nil
    | cons x xs =>
      rw [groupByArn_cons]
      have hlen : (spanKey x.ProductArn xs).2.length ≤ fuel := by
        have := spanKey_snd_length x.ProductArn xs
        simp only [List.length_cons] at h
        omega
      have hs₂ : List.Sorted arnLe (spanKey x.ProductArn xs).2 :=
        List.Pairwise.sublist (spanKey_snd_sublist _ _) hs.of_cons
      refine List.Pairwise.cons ?_ (ih _ hlen hs₂)
      intro g₂ hg₂
      obtain ⟨y, hy, hkey⟩ := exists_key_elem hg₂
      have hne₂ : y.ProductArn ≠ x.ProductArn := spanKey_snd_key_ne hs y hy
      show groupArn (x :: (spanKey x.ProductArn xs).1) ≠ groupArn g₂
      rw [hkey]
      exact fun hcontra => hne₂ hcontra.symm

theorem groupByArn_key_nodup {l : List AsffFinding}
    (hs : List.Sorted arnLe l) : ((groupByArn l).map groupArn).Nodup := by
  exact List.pairwise_map.mpr (groupByArn_pairwise_key l.length l le_rfl hs)

theorem groupByArn_key_inj {l g g₂ : List AsffFinding}
    (hs : List.Sorted arnLe l) (hg : g ∈ groupByArn l) (hg₂ : g₂ ∈ groupByArn l)
    (hkey : groupArn g = groupArn g₂) : g = g₂ :=
  List.inj_on_of_nodup_map (groupByArn_key_nodup hs) hg hg₂ hkey

theorem matchesFilter_iff {account region : String} {f : SHFinding} :
    matchesFilter account region f = true ↔
      f.ProductName = "Prowler" ∧ f.RecordState = "ACTIVE" ∧
        f.AwsAccountId = account ∧ f.Region = region := by
  simp only [matchesFilter, Bool.and_eq_true, beq_iff_eq]
  tauto

theorem matchesFilter_active {account region : String} {f : SHFinding}
    (h : matchesFilter account region f = true) : f.RecordState = "ACTIVE" :=
  (matchesFilter_iff.mp h).2.1

theorem archiveFinding_not_active (now : String) (f : SHFinding) :
    (archiveFinding now f).RecordState = "ARCHIVED" := rfl

theorem findingsToArchive_archived {account region now : String}
    {ids : List String} {store : Store} :
    ∀ x ∈ findingsToArchive account region now ids store,
      x.RecordState = "ARCHIVED" := by
  intro x hx
  simp only [findingsToArchive, List.mem_map] at hx
  obtain ⟨a, -, rfl⟩ := hx
  rfl

theorem findingsToArchive_region {account region now : String}
    {ids : List String} {store : Store} :
    ∀ x ∈ findingsToArchive account region now ids store,
      x.Region = region ∧ ∃ o ∈ store, o.Id = x.Id ∧ o.Region = region := by
  intro x hx
  simp only [findingsToArchive, List.mem_map, List.mem_filter] at hx
  obtain ⟨a, ⟨⟨ha, hm⟩, -⟩, rfl⟩ := hx
  have hreg := (matchesFilter_iff.mp hm).2.2.2
  exact ⟨hreg, a, ha, rfl, hreg⟩

theorem importedOfBatch_subset {res : ImportResult} {b : List SHFinding} :
    ∀ x ∈ importedOfBatch res b, x ∈ b :=
  fun _ hx => (List.mem_filter.mp hx).1

theorem importedOfBatch_success (b : List SHFinding) :
    importedOfBatch { FailedCount := 0, FailedFindings := [] } b = b := by
  simp [importedOfBatch]

theorem applyImportBatch_map_id (imported : List SHFinding) (store : Store) :
    (applyImportBatch imported store).map (fun f => f.Id) =
      store.map (fun f => f.Id) := by
  unfold applyImportBatch
  rw [List.map_map]
  refine List.map_congr_left ?_
  intro a _
  cases hfind : imported.find? (fun g => g.Id == a.Id) with
  | none => simp [hfind]
  | some g =>
    have hid : (g.Id == a.Id) = true := by
      have := List.find?_some hfind
      simpa using this
    simp [hfind, eq_of_beq hid]

theorem active_mem_applyImportBatch {imported : List SHFinding} {store : Store}
    {f : SHFinding} (hf : f ∈ applyImportBatch imported store)
    (harch : ∀ x ∈ imported, x.RecordState = "ARCHIVED")
    (hact : f.RecordState = "ACTIVE") :
    f ∈ store ∧ ∀ x ∈ imported, x.Id ≠ f.Id := by
  unfold applyImportBatch at hf
  obtain ⟨a, ha, heq⟩ := List.mem_map.mp hf
  cases hfind : imported.find? (fun g => g.Id == a.Id) with
  | some g =>
    simp only [hfind] at heq
    have := harch g (List.mem_of_find?_eq_some hfind)
    rw [heq, hact] at this
    simp at this
  | none =>
    simp only [hfind] at heq
    subst heq
    refine ⟨ha, ?_⟩
    intro x hx hcontra
    have hnone := List.find?_eq_none.mp hfind x hx
    exact hnone (by rw [hcontra]; simp)

theorem filter_map_congr {p : SHFinding → Bool} {h : SHFinding → SHFinding} :
    ∀ (l : List SHFinding),
      (∀ a ∈ l, (p a = true → h a = a) ∧ (p a = false → p (h a) = false)) →
      (l.map h).filter p = l.filter p := by
  intro l
  induction l with
  | nil => intro _; rfl
  | cons a l ih =>
    intro hyp
    have htail := ih fun b hb => hyp b (List.mem_cons_of_mem a hb)
    simp only [List.map_cons]
    cases hpa : p a with
    | true =>
      have ha := (hyp a (List.mem_cons_self a l)).1 hpa
      rw [List.filter_cons_of_pos (by rw [ha]; exact hpa),
        List.filter_cons_of_pos hpa, ha, htail]
    | false =>
      have ha := (hyp a (List.mem_cons_self a l)).2 hpa
      rw [List.filter_cons_of_neg (by simp [ha]),
        List.filter_cons_of_neg (by simp [hpa]), htail]

theorem submitBatches_success (env : HubEnv) (hok : successImports env) :
    ∀ (batches : List (List SHFinding)) (store : Store),
      submitBatches env store batches =
        { submitted := batches, logs := [],
          store := batches.foldl (fun s b => applyImportBatch b s) store,
          err := none } := by
  intro batches
  induction batches with
  | nil => intro store; rfl
  | cons b rest ih =>
    intro store
    simp only [submitBatches, hok b, importedOfBatch_success]
    simp [ih]

theorem submitBatches_wf (env : HubEnv) (hwf : wfImports env) :
    ∀ (batches : List (List SHFinding)) (store : Store),
      (submitBatches env store batches).submitted = batches ∧
        (submitBatches env store batches).err = none := by
  intro batches
  induction batches with
  | nil => intro store; exact ⟨rfl, rfl⟩
  | cons b rest ih =>
    intro store
    simp only [submitBatches]
    by_cases hc : 0 < (env.batchImport b).FailedCount
    · have hne := hwf b hc
      cases hff : (env.batchImport b).FailedFindings with
      | nil => exact absurd hff hne
      | cons fi fs =>
        simp only [if_pos hc, hff]
        simpa using ih _
    · simp only [if_neg hc]
      simpa using ih _

theorem submitBatches_logs (env : HubEnv) (hwf : wfImports env) :
    ∀ (batches : List (List SHFinding)) (store : Store),
      (submitBatches env store batches).logs =
        batches.filterMap (fun b => failedBatchLog (env.batchImport b)) := by
  intro batches
  induction batches with
  | nil => intro store; rfl
  | cons b rest ih =>
    intro store
    simp only [submitBatches]
    by_cases hc : 0 < (env.batchImport b).FailedCount
    · have hne := hwf b hc
      cases hff : (env.batchImport b).FailedFindings with
      | nil => exact absurd hff hne
      | cons fi fs =>
        simp only [if_pos hc, hff]
        simp [List.filterMap_cons, failedBatchLog, hc, hff, ih]
    · simp only [if_neg hc]
      simp [List.filterMap_cons, failedBatchLog, hc, ih]

theorem mem_submitted_submitBatches (env : HubEnv) :
    ∀ (batches : List (List SHFinding)) (store : Store) (b : List SHFinding),
      b ∈ (submitBatches env store batches).submitted → b ∈ batches := by
  intro batches
  induction batches with
  | nil => intro store b hb; exact absurd hb (by simp [submitBatches])
  | cons b₀ rest ih =>
    intro store b hb
    simp only [submitBatches] at hb
    by_cases hc : 0 < (env.batchImport b₀).FailedCount
    · cases hff : (env.batchImport b₀).FailedFindings with
      | nil =>
        simp only [if_pos hc, hff] at hb
        rcases List.mem_singleton.mp hb with rfl
        exact List.mem_cons_self _ _
      | cons fi fs =>
        simp only [if_pos hc, hff] at hb
        rcases List.mem_cons.mp hb with rfl | hb₂
        · exact List.mem_cons_self _ _
        · exact List.mem_cons_of_mem _ (ih _ _ hb₂)
    · simp only [if_neg hc] at hb
      rcases List.mem_cons.mp hb with rfl | hb₂
      · exact List.mem_cons_self _ _
      · exact List.mem_cons_of_mem _ (ih _ _ hb₂)

theorem batchFailed_mem_logs (env : HubEnv) :
    ∀ (batches : List (List SHFinding)) (store : Store) (b : List SHFinding),
      b ∈ (submitBatches env store batches).submitted →
      ∀ fi fs, (env.batchImport b).FailedFindings = fi :: fs →
        0 < (env.batchImport b).FailedCount →
        LogEntry.batchFailed fi.ErrorCode fi.ErrorMessage ∈
          (submitBatches env store batches).logs := by
  intro batches
  induction batches with
  | nil => intro store b hb; exact absurd hb (by simp [submitBatches])
  | cons b₀ rest ih =>
    intro store b hb fi fs hff hc
    simp only [submitBatches] at hb ⊢
    by_cases hc₀ : 0 < (env.batchImport b₀).FailedCount
    · cases hff₀ : (env.batchImport b₀).FailedFindings with
      | nil =>
        simp only [if_pos hc₀, hff₀] at hb
        rcases List.mem_singleton.mp hb with rfl
        rw [hff₀] at hff
        cases hff
      | cons fi₀ fs₀ =>
        simp only [if_pos hc₀, hff₀] at hb ⊢
        rcases List.mem_cons.mp hb with rfl | hb₂
        · rw [hff₀] at hff
          cases hff
          exact List.mem_cons_self _ _
        · exact List.mem_cons_of_mem _ (ih _ _ hb₂ fi fs hff hc)
    · simp only [if_neg hc₀] at hb ⊢
      rcases List.mem_cons.mp hb with rfl | hb₂
      · exact absurd hc hc₀
      · exact ih _ _ hb₂ fi fs hff hc

theorem foldl_apply_map_id (batches : List (List SHFinding)) :
    ∀ (store : Store),
      ((batches.foldl (fun s b => applyImportBatch b s) store).map
          (fun f => f.Id)) = store.map (fun f => f.Id) := by
  induction batches with
  | nil => intro store; rfl
  | cons b rest ih =>
    intro store
    rw [List.foldl_cons, ih, applyImportBatch_map_id]

theorem active_mem_foldl_apply (batches : List (List SHFinding)) :
    ∀ (store : Store) (f : SHFinding),
      f ∈ batches.foldl (fun s b => applyImportBatch b s) store →
      (∀ b ∈ batches, ∀ x ∈ b, x.RecordState = "ARCHIVED") →
      f.RecordState = "ACTIVE" →
      f ∈ store ∧ ∀ b ∈ batches, ∀ x ∈ b, x.Id ≠ f.Id := by
  induction batches with
  | nil =>
    intro store f hf _ _
    exact ⟨hf, by intro b hb; cases hb⟩
  | cons b rest ih =>
    intro store f hf harch hact
    rw [List.foldl_cons] at hf
    obtain ⟨hf₁, hrest⟩ :=
      ih (applyImportBatch b store) f hf
        (fun b₂ hb₂ => harch b₂ (List.mem_cons_of_mem b hb₂)) hact
    obtain ⟨hstore, hb⟩ :=
      active_mem_applyImportBatch hf₁ (harch b (List.mem_cons_self b rest)) hact
    refine ⟨hstore, ?_⟩
    intro b₂ hb₂
    rcases List.mem_cons.mp hb₂ with rfl | h₂
    · exact hb
    · exact hrest _ h₂

theorem filter_applyImportBatch_other_region
    {store₀ store : Store} {b : List SHFinding} {acct r rg : String}
    (hr : r ≠ rg)
    (hnodup : (store₀.map (fun f => f.Id)).Nodup)
    (hb : ∀ x ∈ b, x.RecordState = "ARCHIVED" ∧
        ∃ o ∈ store₀, o.Id = x.Id ∧ o.Region = rg)
    (hmem : ∀ f ∈ store, f.RecordState = "ACTIVE" → f ∈ store₀) :
    (applyImportBatch b store).filter (matchesFilter acct r) =
      store.filter (matchesFilter acct r) := by
  unfold applyImportBatch
  apply filter_map_congr
  intro a ha
  constructor
  · intro hpa
    cases hfind : b.find? (fun g => g.Id == a.Id) with
    | none => simp [hfind]
    | some g =>
      exfalso
      have hgb := List.mem_of_find?_eq_some hfind
      obtain ⟨-, o, ho, hoid, horeg⟩ := hb g hgb
      have hgid : g.Id = a.Id := eq_of_beq (by simpa using List.find?_some hfind)
      have haact : a.RecordState = "ACTIVE" := matchesFilter_active hpa
      have hamem : a ∈ store₀ := hmem a ha haact
      have hareg : a.Region = r := (matchesFilter_iff.mp hpa).2.2.2
      have hne : o ≠ a := by
        intro he
        rw [he] at horeg
        exact hr (by rw [← hareg, horeg])
      exact hne (List.inj_on_of_nodup_map hnodup ho hamem (by rw [hoid, hgid]))
  · intro hpa
    cases hfind : b.find? (fun g => g.Id == a.Id) with
    | none => simp [hfind, hpa]
    | some g =>
      have hgarch := (hb g (List.mem_of_find?_eq_some hfind)).1
      simp only [hfind]
      cases hmf : matchesFilter acct r g with
      | false => rfl
      | true =>
        have := matchesFilter_active hmf
        rw [hgarch] at this
        simp at this

theorem filter_foldl_other_region {store₀ : Store} {acct r rg : String}
    (hr : r ≠ rg) (hnodup : (store₀.map (fun f => f.Id)).Nodup)
    (batches : List (List SHFinding))
    (hbs : ∀ bb ∈ batches, ∀ x ∈ bb, x.RecordState = "ARCHIVED" ∧
        ∃ o ∈ store₀, o.Id = x.Id ∧ o.Region = rg) :
    ∀ (store : Store), (∀ f ∈ store, f.RecordState = "ACTIVE" → f ∈ store₀) →
      (batches.foldl (fun s b => applyImportBatch b s) store).filter
          (matchesFilter acct r) =
        store.filter (matchesFilter acct r) := by
  induction batches with
  | nil => intro store _; rfl
  | cons bb rest ih =>
    intro store hmem
    rw [List.foldl_cons]
    have hbb := hbs bb (List.mem_cons_self bb rest)
    have harch : ∀ x ∈ bb, x.RecordState = "ARCHIVED" := fun x hx => (hbb x hx).1
    have hmem₂ : ∀ f ∈ applyImportBatch bb store,
        f.RecordState = "ACTIVE" → f ∈ store₀ := by
      intro f hf hact
      exact hmem f (active_mem_applyImportBatch hf harch hact).1 hact
    rw [ih (fun b₂ h₂ => hbs b₂ (List.mem_cons_of_mem bb h₂)) _ hmem₂]
    exact filter_applyImportBatch_other_region hr hnodup hbb hmem

theorem hubEnabled_true_iff {env : HubEnv} {r : String} :
    hubEnabled env r = true ↔ env.describeHub r = .ok () := by
  unfold hubEnabled
  cases h : env.describeHub r with
  | ok u => cases u; simp
  | error e => simp

theorem hubEnabled_false_iff {env : HubEnv} {r : String} :
    hubEnabled env r = false ↔ ∃ e, env.describeHub r = .error e := by
  unfold hubEnabled
  cases h : env.describeHub r with
  | ok u => simp
  | error e => simp

theorem runGroups_length (env : HubEnv) (acct now : String) :
    ∀ (gs : List (List AsffFinding)) (store : Store),
      (runGroups env acct now store gs).1.length = gs.length := by
  intro gs
  induction gs with
  | nil => intro store; rfl
  | cons g rest ih =>
    intro store
    simp only [runGroups, List.length_cons]
    rw [ih]

theorem runGroups_regions (env : HubEnv) (acct now : String) :
    ∀ (gs : List (List AsffFinding)) (store : Store),
      (runGroups env acct now store gs).1.map (fun res => res.region) =
        gs.map (fun g => regionOfArn (groupArn g)) := by
  intro gs
  induction gs with
  | nil => intro store; rfl
  | cons g rest ih =>
    intro store
    simp only [runGroups, List.map_cons]
    refine congrArg₂ _ ?_ (ih _)
    cases hd : env.describeHub (regionOfArn (groupArn g)) with
    | error e => simp [processGroup, hd]
    | ok u => simp [processGroup, hd]

theorem runGroups_hubOk (env : HubEnv) (acct now : String) :
    ∀ (gs : List (List AsffFinding)) (store : Store),
      ∀ res ∈ (runGroups env acct now store gs).1,
        res.hubOk = hubEnabled env res.region := by
  intro gs
  induction gs with
  | nil => intro store res hres; cases hres
  | cons g rest ih =>
    intro store res hres
    simp only [runGroups] at hres
    rcases List.mem_cons.mp hres with rfl | hres₂
    · cases hd : env.describeHub (regionOfArn (groupArn g)) with
      | error e =>
        simp [processGroup, hd, hubEnabled]
      | ok u =>
        simp [processGroup, hd, hubEnabled]
    · exact ih _ res hres₂

theorem queriedRegions_cons_false {res : GroupResult} {rs : List GroupResult}
    (h : res.hubOk = false) : queriedRegions (res :: rs) = queriedRegions rs := by
  simp [queriedRegions, List.filter_cons, h]

theorem queriedRegions_cons_true {res : GroupResult} {rs : List GroupResult}
    (h : res.hubOk = true) :
    queriedRegions (res :: rs) = res.region :: queriedRegions rs := by
  simp [queriedRegions, List.filter_cons, h]

theorem mem_queriedRegions_runGroups (env : HubEnv) (acct now : String) :
    ∀ (gs : List (List AsffFinding)) (store : Store) (r : String),
      r ∈ queriedRegions (runGroups env acct now store gs).1 ↔
        hubEnabled env r = true ∧ ∃ g ∈ gs, regionOfArn (groupArn g) = r := by
  intro gs
  induction gs with
  | nil =>
    intro store r
    simp [runGroups, queriedRegions]
  | cons g rest ih =>
    intro store r
    simp only [runGroups]
    cases hd : env.describeHub (regionOfArn (groupArn g)) with
    | error e =>
      have hfalse : (processGroup env acct now store g).1.hubOk = false := by
        simp [processGroup, hd]
      rw [queriedRegions_cons_false hfalse, ih]
      constructor
      · rintro ⟨hh, g₂, hg₂, hr⟩
        exact ⟨hh, g₂, List.mem_cons_of_mem g hg₂, hr⟩
      · rintro ⟨hh, g₂, hg₂, hr⟩
        rcases List.mem_cons.mp hg₂ with rfl | hg₃
        · rw [← hr] at hh
          rw [hubEnabled_true_iff.mp hh] at hd
          cases hd
        · exact ⟨hh, g₂, hg₃, hr⟩
    | ok u =>
      have htrue : (processGroup env acct now store g).1.hubOk = true := by
        simp [processGroup, hd]
      have hreg : (processGroup env acct now store g).1.region =
          regionOfArn (groupArn g) := by
        simp [processGroup, hd]
      rw [queriedRegions_cons_true htrue, hreg, List.mem_cons, ih]
      constructor
      · rintro (rfl | ⟨hh, g₂, hg₂, hr⟩)
        · cases u
          exact ⟨hubEnabled_true_iff.mpr hd, g, List.mem_cons_self g rest, rfl⟩
        · exact ⟨hh, g₂, List.mem_cons_of_mem g hg₂, hr⟩
      · rintro ⟨hh, g₂, hg₂, hr⟩
        rcases List.mem_cons.mp hg₂ with rfl | hg₃
        · exact Or.inl hr.symm
        · exact Or.inr ⟨hh, g₂, hg₃, hr⟩

theorem nodup_queriedRegions (env : HubEnv) (acct now : String)
    (gs : List (List AsffFinding)) (store : Store)
    (h : (gs.map (fun g => regionOfArn (groupArn g))).Nodup) :
    (queriedRegions (runGroups env acct now store gs).1).Nodup := by
  have hsub : List.Sublist
      (queriedRegions (runGroups env acct now store gs).1)
      ((runGroups env acct now store gs).1.map (fun res => res.region)) :=
    List.Sublist.map _ (List.filter_sublist _)
  rw [runGroups_regions] at hsub
  exact List.Nodup.sublist hsub h

theorem processGroup_snd_ok {env : HubEnv} (acct now : String)
    (hok : successImports env) {store : Store} {g : List AsffFinding} {u : Unit}
    (hd : env.describeHub (regionOfArn (groupArn g)) = .ok u) :
    (processGroup env acct now store g).2 =
      (chunksOf 100 (findingsToArchive acct (regionOfArn (groupArn g)) now
          (g.map (fun x => x.Id)) store)).foldl
        (fun s b => applyImportBatch b s) store := by
  simp [processGroup, hd, submitBatches_success env hok]

theorem processGroup_snd_err {env : HubEnv} (acct now : String)
    {store : Store} {g : List AsffFinding} {e : AwsError}
    (hd : env.describeHub (regionOfArn (groupArn g)) = .error e) :
    (processGroup env acct now store g).2 = store := by
  simp [processGroup, hd]

theorem chunks_toArchive_archived {acct rg now : String} {ids : List String}
    {store : Store} :
    ∀ bb ∈ chunksOf 100 (findingsToArchive acct rg now ids store),
      ∀ x ∈ bb, x.RecordState = "ARCHIVED" :=
  fun _ hbb x hx =>
    findingsToArchive_archived x (mem_of_mem_chunksOf hbb hx)

theorem active_mem_processGroup {env : HubEnv} {acct now : String}
    (hok : successImports env) {store : Store} {g : List AsffFinding}
    {f : SHFinding} (hf : f ∈ (processGroup env acct now store g).2)
    (hact : f.RecordState = "ACTIVE") :
    f ∈ store ∧ (hubEnabled env (regionOfArn (groupArn g)) = true →
      matchesFilter acct (regionOfArn (groupArn g)) f = true →
      f.Id ∈ g.map (fun x => x.Id)) := by
  cases hd : env.describeHub (regionOfArn (groupArn g)) with
  | error e =>
    rw [processGroup_snd_err acct now hd] at hf
    refine ⟨hf, ?_⟩
    intro htrue
    rw [hubEnabled_true_iff.mp htrue] at hd
    cases hd
  | ok u =>
    rw [processGroup_snd_ok acct now hok hd] at hf
    obtain ⟨hstore, hids⟩ :=
      active_mem_foldl_apply _ _ _ hf chunks_toArchive_archived hact
    refine ⟨hstore, ?_⟩
    intro _ hmf
    by_contra hnotin
    have hfmem : archiveFinding now f ∈
        findingsToArchive acct (regionOfArn (groupArn g)) now
          (g.map (fun x => x.Id)) store := by
      simp only [findingsToArchive, List.mem_map, List.mem_filter]
      refine ⟨f, ⟨⟨hstore, hmf⟩, ?_⟩, rfl⟩
      simpa using hnotin
    have hflat : archiveFinding now f ∈
        (chunksOf 100 (findingsToArchive acct (regionOfArn (groupArn g)) now
          (g.map (fun x => x.Id)) store)).flatten := by
      rw [chunksOf_flatten 100 (by norm_num)]
      exact hfmem
    obtain ⟨bb, hbb, hxin⟩ := List.mem_flatten.mp hflat
    exact hids bb hbb _ hxin rfl

theorem active_mem_runGroups {env : HubEnv} {acct now : String}
    (hok : successImports env) :
    ∀ (gs : List (List AsffFinding)) (store : Store) (f : SHFinding),
      f ∈ (runGroups env acct now store gs).2 →
      f.RecordState = "ACTIVE" →
      f ∈ store ∧ ∀ g ∈ gs, hubEnabled env (regionOfArn (groupArn g)) = true →
        matchesFilter acct (regionOfArn (groupArn g)) f = true →
        f.Id ∈ g.map (fun x => x.Id) := by
  intro gs
  induction gs with
  | nil =>
    intro store f hf _
    exact ⟨hf, by intro g hg; cases hg⟩
  | cons g rest ih =>
    intro store f hf hact
    simp only [runGroups] at hf
    obtain ⟨hf₁, hrest⟩ := ih _ f hf hact
    obtain ⟨hstore, hg⟩ := active_mem_processGroup hok hf₁ hact
    refine ⟨hstore, ?_⟩
    intro g₂ hg₂
    rcases List.mem_cons.mp hg₂ with rfl | h₂
    · exact hg
    · exact hrest g₂ h₂

theorem runGroups_noop (env : HubEnv) (acct now : String) :
    ∀ (gs : List (List AsffFinding)) (store : Store),
      (∀ g ∈ gs, hubEnabled env (regionOfArn (groupArn g)) = true →
        ∀ f ∈ store, matchesFilter acct (regionOfArn (groupArn g)) f = true →
          f.Id ∈ g.map (fun x => x.Id)) →
      (runGroups env acct now store gs).2 = store ∧
        ∀ res ∈ (runGroups env acct now store gs).1, res.toArchive = [] := by
  intro gs
  induction gs with
  | nil =>
    intro store _
    exact ⟨rfl, by intro res hres; cases hres⟩
  | cons g rest ih =>
    intro store hyp
    have hstep : (processGroup env acct now store g).2 = store ∧
        (processGroup env acct now store g).1.toArchive = [] := by
      cases hd : env.describeHub (regionOfArn (groupArn g)) with
      | error e =>
        constructor
        · exact processGroup_snd_err acct now hd
        · simp [processGroup, hd]
      | ok u =>
        have htoarch : findingsToArchive acct (regionOfArn (groupArn g)) now
            (g.map (fun x => x.Id)) store = [] := by
          unfold findingsToArchive
          rw [List.filter_eq_nil_iff.mpr ?_, List.map_nil]
          intro a ha
          obtain ⟨hmem, hmf⟩ := List.mem_filter.mp ha
          have hid := hyp g (List.mem_cons_self g rest)
            (hubEnabled_true_iff.mpr (by cases u; exact hd)) a hmem hmf
          simpa using hid
        constructor
        · show (processGroup env acct now store g).2 = store
          simp [processGroup, hd, htoarch, chunksOf_nil, submitBatches]
        · show (processGroup env acct now store g).1.toArchive = []
          simp [processGroup, hd, htoarch]
    obtain ⟨hs2, hta⟩ := hstep
    obtain ⟨ih2, ih1⟩ :=
      ih store (fun g₂ h₂ => hyp g₂ (List.mem_cons_of_mem _ h₂))
    constructor
    · show (runGroups env acct now
          (processGroup env acct now store g).2 rest).2 = store
      rw [hs2]
      exact ih2
    · intro res hres
      simp only [runGroups] at hres
      rcases List.mem_cons.mp hres with rfl | h₂
      · exact hta
      · rw [hs2] at h₂
        exact ih1 res h₂

theorem findingsToArchive_filter_eq {acct r now : String} {ids : List String}
    {s s₂ : Store}
    (h : s.filter (matchesFilter acct r) = s₂.filter (matchesFilter acct r)) :
    findingsToArchive acct r now ids s = findingsToArchive acct r now ids s₂ := by
  unfold findingsToArchive
  rw [h]

theorem toArchive_runGroups (env : HubEnv) (acct now : String)
    (hok : successImports env) :
    ∀ (gs : List (List AsffFinding)) (store : Store),
      (store.map (fun f => f.Id)).Nodup →
      (gs.map (fun g => regionOfArn (groupArn g))).Pairwise (fun a b => a ≠ b) →
      ∀ res ∈ (runGroups env acct now store gs).1, res.hubOk = true →
        ∃ g ∈ gs, res.region = regionOfArn (groupArn g) ∧
          res.currentIds = g.map (fun x => x.Id) ∧
          res.toArchive =
            findingsToArchive acct res.region now res.currentIds store := by
  intro gs
  induction gs with
  | nil =>
    intro store _ _ res hres
    simp [runGroups] at hres
  | cons g rest ih =>
    intro store hnodup hpair res hres hhub
    simp only [List.map_cons, List.pairwise_cons] at hpair
    obtain ⟨hpair₁, hpair₂⟩ := hpair
    simp only [runGroups] at hres
    rcases List.mem_cons.mp hres with rfl | h₂
    · cases hd : env.describeHub (regionOfArn (groupArn g)) with
      | error e =>
        have hf : (processGroup env acct now store g).1.hubOk = false := by
          simp [processGroup, hd]
        rw [hf] at hhub
        cases hhub
      | ok u =>
        refine ⟨g, List.mem_cons_self g rest, ?_, ?_, ?_⟩
        · simp [processGroup, hd]
        · simp [processGroup, hd]
        · have hr : (processGroup env acct now store g).1.region =
              regionOfArn (groupArn g) := by simp [processGroup, hd]
          have hi : (processGroup env acct now store g).1.currentIds =
              g.map (fun x => x.Id) := by simp [processGroup, hd]
          rw [hr, hi]
          simp [processGroup, hd]
    · have hstore₂id : ((processGroup env acct now store g).2.map
          (fun f => f.Id)) = store.map (fun f => f.Id) := by
        cases hd : env.describeHub (regionOfArn (groupArn g)) with
        | error e => rw [processGroup_snd_err acct now hd]
        | ok u =>
          rw [processGroup_snd_ok acct now hok hd]
          exact foldl_apply_map_id _ _
      have hnodup₂ : ((processGroup env acct now store g).2.map
          (fun f => f.Id)).Nodup := hstore₂id ▸ hnodup
      obtain ⟨g₂, hg₂, hreg, hids, hta⟩ := ih _ hnodup₂ hpair₂ res h₂ hhub
      refine ⟨g₂, List.mem_cons_of_mem g hg₂, hreg, hids, ?_⟩
      rw [hta]
      have hrne : res.region ≠ regionOfArn (groupArn g) := by
        rw [hreg]
        intro hcontra
        exact (hpair₁ _ (List.mem_map_of_mem _ hg₂)) hcontra.symm
      cases hd : env.describeHub (regionOfArn (groupArn g)) with
      | error e => rw [processGroup_snd_err acct now hd]
      | ok u =>
        rw [processGroup_snd_ok acct now hok hd]
        apply findingsToArchive_filter_eq
        refine filter_foldl_other_region hrne hnodup _ ?_ store (fun f hf _ => hf)
        intro bb hbb x hx
        have hxta := mem_of_mem_chunksOf hbb hx
        exact ⟨findingsToArchive_archived x hxta,
          (findingsToArchive_region x hxta).2⟩

theorem processGroup_submitted_wf {env : HubEnv} (acct now : String)
    (hwf : wfImports env) (store : Store) (g : List AsffFinding) :
    (processGroup env acct now store g).1.submitted =
      chunksOf 100 (processGroup env acct now store g).1.toArchive := by
  cases hd : env.describeHub (regionOfArn (groupArn g)) with
  | error e =>
    simp only [processGroup, hd]
    rw [chunksOf_nil]
  | ok u =>
    simp only [processGroup, hd]
    exact (submitBatches_wf env hwf _ _).1

theorem processGroup_hub_false_shape {env : HubEnv} (acct now : String)
    (store : Store) (g : List AsffFinding) {e : AwsError}
    (hd : env.describeHub (regionOfArn (groupArn g)) = .error e) :
    (processGroup env acct now store g).1.logs =
        [.regionError e.kind e.msg (regionOfArn (groupArn g))] ∧
      (processGroup env acct now store g).1.submitted = [] ∧
      (processGroup env acct now store g).1.region =
        regionOfArn (groupArn g) := by
  refine ⟨?_, ?_, ?_⟩ <;> simp [processGroup, hd]

theorem processGroup_batch_log {env : HubEnv} (acct now : String)
    (store : Store) (g : List AsffFinding) :
    ∀ b ∈ (processGroup env acct now store g).1.submitted,
      ∀ fi fs, (env.batchImport b).FailedFindings = fi :: fs →
        0 < (env.batchImport b).FailedCount →
        LogEntry.batchFailed fi.ErrorCode fi.ErrorMessage ∈
          (processGroup env acct now store g).1.logs := by
  intro b hb fi fs hff hc
  cases hd : env.describeHub (regionOfArn (groupArn g)) with
  | error e =>
    rw [(processGroup_hub_false_shape acct now store g hd).2.1] at hb
    cases hb
  | ok u =>
    have hsub : (processGroup env acct now store g).1.submitted =
        (submitBatches env store (chunksOf 100 (findingsToArchive acct
          (regionOfArn (groupArn g)) now (g.map (fun f => f.Id)) store))).submitted := by
      simp [processGroup, hd]
    have hlogs : ∀ x, x ∈ (submitBatches env store (chunksOf 100
        (findingsToArchive acct (regionOfArn (groupArn g)) now
          (g.map (fun f => f.Id)) store))).logs →
        x ∈ (processGroup env acct now store g).1.logs := by
      intro x hx
      simp only [processGroup, hd]
      exact List.mem_append_left _ hx
    rw [hsub] at hb
    exact hlogs _ (batchFailed_mem_logs env _ _ _ hb fi fs hff hc)

theorem mem_runGroups_exists (env : HubEnv) (acct now : String) :
    ∀ (gs : List (List AsffFinding)) (store : Store) (res : GroupResult),
      res ∈ (runGroups env acct now store gs).1 →
      ∃ g store₂, g ∈ gs ∧ res = (processGroup env acct now store₂ g).1 := by
  intro gs
  induction gs with
  | nil => intro store res hres; simp [runGroups] at hres
  | cons g rest ih =>
    intro store res hres
    simp only [runGroups] at hres
    rcases List.mem_cons.mp hres with rfl | h₂
    · exact ⟨g, store, List.mem_cons_self g rest, rfl⟩
    · obtain ⟨g₂, store₂, hg₂, heq⟩ := ih _ res h₂
      exact ⟨g₂, store₂, List.mem_cons_of_mem g hg₂, heq⟩

theorem mem_group_iff_region {current : List AsffFinding}
    (hreg : ∀ f₁ ∈ current, ∀ f₂ ∈ current,
      regionOfArn f₁.ProductArn = regionOfArn f₂.ProductArn →
      f₁.ProductArn = f₂.ProductArn)
    {g : List AsffFinding} (hg : g ∈ groupByArn (sortByArn current))
    {f : AsffFinding} :
    f ∈ g ↔ f ∈ current ∧
      regionOfArn f.ProductArn = regionOfArn (groupArn g) := by
  constructor
  · intro hf
    have hmem : f ∈ current := mem_sortByArn.mp (mem_of_mem_groupByArn hg hf)
    have hkey : f.ProductArn = groupArn g :=
      key_of_mem_groupByArn (sortByArn current).length _ le_rfl g hg f hf
    exact ⟨hmem, by rw [hkey]⟩
  · rintro ⟨hmem, hreq⟩
    obtain ⟨g₂, hg₂, hf₂⟩ := exists_group_of_mem (mem_sortByArn.mpr hmem)
    have hkey₂ : f.ProductArn = groupArn g₂ :=
      key_of_mem_groupByArn (sortByArn current).length _ le_rfl g₂ hg₂ f hf₂
    obtain ⟨y, hy, hyk⟩ := exists_key_elem hg
    have hycur : y ∈ current := mem_sortByArn.mp hy
    have hry : regionOfArn f.ProductArn = regionOfArn y.ProductArn := by
      rw [hreq, hyk]
    have harn : f.ProductArn = y.ProductArn := hreg f hmem y hycur hry
    have hkeys : groupArn g₂ = groupArn g := by
      rw [← hkey₂, harn, ← hyk]
    rw [← groupByArn_key_inj (sorted_sortByArn current) hg₂ hg hkeys]
    exact hf₂

theorem currentIds_mem_iff {current : List AsffFinding}
    (hreg : ∀ f₁ ∈ current, ∀ f₂ ∈ current,
      regionOfArn f₁.ProductArn = regionOfArn f₂.ProductArn →
      f₁.ProductArn = f₂.ProductArn)
    {g : List AsffFinding} (hg : g ∈ groupByArn (sortByArn current))
    (i : String) :
    i ∈ g.map (fun x => x.Id) ↔
      i ∈ regionIds (regionOfArn (groupArn g)) current := by
  simp only [regionIds, List.mem_map, List.mem_filter, beq_iff_eq]
  constructor
  · rintro ⟨f, hf, rfl⟩
    have h := (mem_group_iff_region hreg hg).mp hf
    exact ⟨f, ⟨h.1, h.2⟩, rfl⟩
  · rintro ⟨f, ⟨hmem, hreq⟩, rfl⟩
    exact ⟨f, (mem_group_iff_region hreg hg).mpr ⟨hmem, hreq⟩, rfl⟩

theorem filter_contains_congr {ids₁ ids₂ : List String}
    (h : ∀ i, i ∈ ids₁ ↔ i ∈ ids₂) (l : Store) :
    l.filter (fun f => !(ids₁.contains f.Id)) =
      l.filter (fun f => !(ids₂.contains f.Id)) := by
  apply List.filter_congr
  intro a _
  have hc : (ids₁.contains a.Id) = (ids₂.contains a.Id) := by
    rw [Bool.eq_iff_iff]
    constructor
    · intro h₁
      exact List.elem_iff.mpr ((h a.Id).mp (List.elem_iff.mp h₁))
    · intro h₂
      exact List.elem_iff.mpr ((h a.Id).mpr (List.elem_iff.mp h₂))
  rw [hc]

theorem findingsToArchive_ids_congr {acct r now : String}
    {ids₁ ids₂ : List String} (h : ∀ i, i ∈ ids₁ ↔ i ∈ ids₂) (store : Store) :
    findingsToArchive acct r now ids₁ store =
      findingsToArchive acct r now ids₂ store := by
  unfold findingsToArchive
  rw [filter_contains_congr h]

theorem groups_regions_nodup {current : List AsffFinding}
    (hreg : ∀ f₁ ∈ current, ∀ f₂ ∈ current,
      regionOfArn f₁.ProductArn = regionOfArn f₂.ProductArn →
      f₁.ProductArn = f₂.ProductArn) :
    ((groupByArn (sortByArn current)).map
      (fun g => regionOfArn (groupArn g))).Nodup := by
  have hkeys := groupByArn_pairwise_key (sortByArn current).length _ le_rfl
    (sorted_sortByArn current)
  refine List.pairwise_map.mpr (List.Pairwise.imp_of_mem ?_ hkeys)
  intro g₁ g₂ hg₁ hg₂ hne hcontra
  obtain ⟨y₁, hy₁, hk₁⟩ := exists_key_elem hg₁
  obtain ⟨y₂, hy₂, hk₂⟩ := exists_key_elem hg₂
  have hry : regionOfArn y₁.ProductArn = regionOfArn y₂.ProductArn := by
    rw [← hk₁, ← hk₂]
    exact hcontra
  have harn : y₁.ProductArn = y₂.ProductArn :=
    hreg y₁ (mem_sortByArn.mp hy₁) y₂ (mem_sortByArn.mp hy₂) hry
  exact hne (by rw [hk₁, hk₂, harn])

theorem groups_regions_pairwise_ne {current : List AsffFinding}
    (hreg : ∀ f₁ ∈ current, ∀ f₂ ∈ current,
      regionOfArn f₁.ProductArn = regionOfArn f₂.ProductArn →
      f₁.ProductArn = f₂.ProductArn) :
    ((groupByArn (sortByArn current)).map
      (fun g => regionOfArn (groupArn g))).Pairwise (fun a b => a ≠ b) :=
  groups_regions_nodup hreg

/-- C1: the claim states that for an expired credential set,
`currentCredentials` invokes the renewal callback once and the callback returns
fresh credentials with a future expiration.  The code cannot deliver this:
`refresh` (line 75) passes `self.role_info` -- an `AWS_Assume_Role` -- to
`assume_role`, which dereferences `audit_info.original_session` (line 224) and
`audit_info.assumed_role_info` (lines 226-238), attributes that record does not
carry, so every renewal raises `AttributeError` inside `assume_role`'s `try`
block and exits via `logger.critical` + `sys.exit` (lines 240-242).  Evaluated
here: for every expired state and every role-info record, the
`currentCredentials` call ends in that fatal `AttributeError` instead of
returning renewed material. -/
theorem C1_renewal_always_fatal (s : RefreshableState) (now : Nat)
    (role_info : AWS_Assume_Role) (hexp : s.expiry_time ≤ now) :
    currentCredentials (fun _ => providerRefresh role_info) now s =
      .error ⟨"AttributeError", "AWS_Assume_Role object has no attribute original_session"⟩ := by
  simp [currentCredentials, if_pos hexp, providerRefresh,
    assumeRoleRecordGetAttr, assumeRoleAttrs]

/-- Witness for C1 at a concrete expired credential state: the renewal attempt
produces the fatal AttributeError, never fresh credentials. -/
theorem C1_renewal_always_fatal_witness :
    currentCredentials
      (fun _ => providerRefresh
        { role_arn := some "arn:aws:iam::111122223333:role/audit",
          session_duration := some 3600, external_id := none })
      50
      { access_key := "AKIA1", secret_key := "SK1", token := "TOK1",
        expiry_time := 40, refresh_count := 0 } =
    .error ⟨"AttributeError", "AWS_Assume_Role object has no attribute original_session"⟩ :=
  C1_renewal_always_fatal
    { access_key := "AKIA1", secret_key := "SK1", token := "TOK1",
      expiry_time := 40, refresh_count := 0 }
    50
    { role_arn := some "arn:aws:iam::111122223333:role/audit",
      session_duration := some 3600, external_id := none }
    (by decide)

/-- C6 counterexample: an assume-role spec that carries the external id `""`
(present, but empty).  The claim says a present external id is always sent
verbatim, but the code's Python truthiness test treats the empty string like an
absent id and omits the field from the request. -/
theorem C6_external_id_counterexample :
    (assumeRoleRequest
      { role_arn := some "arn:aws:iam::111122223333:role/audit",
        session_duration := some 3600,
        external_id := some "" }).ExternalId = none ∧
    ({ role_arn := some "arn:aws:iam::111122223333:role/audit",
       session_duration := some 3600,
       external_id := some "" } : AWS_Assume_Role).external_id = some "" := by
  decide

/-- C6 (amended): when the assumed-role spec carries no external id -- and
likewise when it carries the empty string, which Python truthiness treats as
absent -- the request contains no external-id field at all; when a non-empty
external id is present it is sent verbatim as given. -/
theorem C6_external_id (ri : AWS_Assume_Role) :
    ((ri.external_id = none ∨ ri.external_id = some "") →
      (assumeRoleRequest ri).ExternalId = none) ∧
    (∀ s, ri.external_id = some s → s ≠ "" →
      (assumeRoleRequest ri).ExternalId = some s) := by
  constructor
  · rintro (h | h) <;> simp [assumeRoleRequest, optTruthy, h]
  · intro s hs hne
    simp [assumeRoleRequest, optTruthy, hs, hne]

/-- Witness for C6 at a concrete absent and a concrete non-empty external id. -/
theorem C6_external_id_witness :
    (assumeRoleRequest
      { role_arn := some "arn:aws:iam::111122223333:role/audit",
        session_duration := some 900,
        external_id := none }).ExternalId = none ∧
    (assumeRoleRequest
      { role_arn := some "arn:aws:iam::111122223333:role/audit",
        session_duration := some 900,
        external_id := some "shared-secret" }).ExternalId =
      some "shared-secret" :=
  ⟨(C6_external_id _).1 (Or.inl rfl),
   (C6_external_id _).2 "shared-secret" rfl (by decide)⟩

/-- C8: the regions for which `generate_regional_clients` constructs clients are
a subset of the catalog's supported set for the service and partition; when the
requested scope is non-empty they are also a subset of the requested scope; and
an empty intersection yields the empty client list rather than an error. -/
theorem C8_regional_clients (json_regions : List String)
    (audited_regions : Option (List String)) (service : String) :
    (∀ c ∈ generate_regional_clients json_regions audited_regions service,
      c.region ∈ json_regions) ∧
    (∀ l, audited_regions = some l → l ≠ [] →
      ∀ c ∈ generate_regional_clients json_regions audited_regions service,
        c.region ∈ l) ∧
    (∀ l, audited_regions = some l → l ≠ [] → (∀ r ∈ json_regions, r ∉ l) →
      generate_regional_clients json_regions audited_regions service = []) := by
  refine ⟨?_, ?_, ?_⟩
  · intro c hc
    simp only [generate_regional_clients, List.mem_map] at hc
    obtain ⟨r, hr, rfl⟩ := hc
    cases ht : truthyRegions audited_regions with
    | true =>
      rw [ht] at hr
      simp only [if_pos rfl] at hr
      exact (List.mem_filter.mp (List.mem_dedup.mp hr)).1
    | false =>
      rw [ht] at hr
      simpa using hr
  · intro l hl hlne c hc
    subst hl
    have ht : truthyRegions (some l) = true := by
      simp [truthyRegions, hlne]
    simp only [generate_regional_clients, ht, if_pos rfl, List.mem_map,
      Option.getD_some] at hc
    obtain ⟨r, hr, rfl⟩ := hc
    have := (List.mem_filter.mp (List.mem_dedup.mp hr)).2
    exact List.elem_iff.mp this
  · intro l hl hlne hdisj
    subst hl
    have ht : truthyRegions (some l) = true := by
      simp [truthyRegions, hlne]
    simp only [generate_regional_clients, ht, if_pos rfl, Option.getD_some]
    rw [List.filter_eq_nil_iff.mpr ?_]
    · rfl
    · intro r hr hcontra
      exact hdisj r hr (List.elem_iff.mp hcontra)

/-- Witness for C8: a concrete catalog and scope with a non-trivial
intersection, and a disjoint scope yielding the empty client list. -/
theorem C8_regional_clients_witness :
    ("us-east-1" : String) ∈ ["us-east-1", "eu-west-1"] ∧
    ({ service := "ec2", region := "us-east-1" } : RegionalClient).region ∈
      ["us-east-1"] ∧
    generate_regional_clients ["us-east-1", "eu-west-1"] (some ["ap-south-1"])
      "ec2" = [] := by
  refine ⟨?_, ?_, ?_⟩
  · exact (C8_regional_clients ["us-east-1", "eu-west-1"] (some ["us-east-1"])
      "ec2").1 { service := "ec2", region := "us-east-1" } (by decide)
  · exact (C8_regional_clients ["us-east-1", "eu-west-1"] (some ["us-east-1"])
      "ec2").2.1 ["us-east-1"] rfl (by decide)
      { service := "ec2", region := "us-east-1" } (by decide)
  · exact (C8_regional_clients ["us-east-1", "eu-west-1"] (some ["ap-south-1"])
      "ec2").2.2 ["ap-south-1"] rfl (by decide) (by decide)

/-- C9: every failure in base session construction, identity validation, role
assumption (organizations or workload link), or organization-metadata retrieval
makes `provider_set_session` terminate (return the fatal `.error`) instead of
continuing in a degraded mode, and the terminating error carries exactly the
failing call's error kind and message (the content the source logs critical
before `sys.exit`). -/
theorem C9_fatal_bootstrap (env : AwsEnv) (a : ProviderArgs) :
    (∀ e, env.sessionFailure = some e →
      provider_set_session env a = .error e) ∧
    (∀ e, env.sessionFailure = none → env.getCallerIdentity = .error e →
      provider_set_session env a = .error e) ∧
    (∀ e ci p, env.sessionFailure = none → env.getCallerIdentity = .ok ci →
      optTruthy a.organizations_role_arn = true →
      arn_parsing (a.organizations_role_arn.getD "") = .ok p →
      env.stsAssumeRole (assumeRoleRequest
        { role_arn := a.organizations_role_arn,
          session_duration := a.input_session_duration,
          external_id := none }) = .error e →
      provider_set_session env a = .error e) ∧
    (∀ e ci p c, env.sessionFailure = none → env.getCallerIdentity = .ok ci →
      optTruthy a.organizations_role_arn = true →
      arn_parsing (a.organizations_role_arn.getD "") = .ok p →
      env.stsAssumeRole (assumeRoleRequest
        { role_arn := a.organizations_role_arn,
          session_duration := a.input_session_duration,
          external_id := none }) = .ok c →
      env.describeAccount = .error e →
      provider_set_session env a = .error e) ∧
    (∀ e ci p, env.sessionFailure = none → env.getCallerIdentity = .ok ci →
      optTruthy a.organizations_role_arn = false →
      optTruthy a.input_role = true →
      arn_parsing (a.input_role.getD "") = .ok p →
      env.stsAssumeRole (assumeRoleRequest
        { role_arn := a.input_role,
          session_duration := a.input_session_duration,
          external_id := a.input_external_id }) = .error e →
      provider_set_session env a = .error e) := by
  refine ⟨?_, ?_, ?_, ?_, ?_⟩
  · intro e h
    simp [provider_set_session, set_session, h]
  · intro e h₁ h₂
    simp [provider_set_session, set_session, h₁, validate_credentials, h₂]
  · intro e ci p h₁ h₂ h₃ h₄ h₅
    simp [provider_set_session, set_session, h₁, validate_credentials, h₂,
      orgStep, h₃, h₄, assume_role, h₅]
  · intro e ci p c h₁ h₂ h₃ h₄ h₅ h₆
    simp [provider_set_session, set_session, h₁, validate_credentials, h₂,
      orgStep, h₃, h₄, assume_role, h₅, get_organizations_metadata, h₆]
  · intro e ci p h₁ h₂ h₃ h₄ h₅ h₆
    simp [provider_set_session, set_session, h₁, validate_credentials, h₂,
      orgStep, h₃, roleStep, h₄, h₅, assume_role, h₆]

/-- Witness for C9 at concrete failing environments for each fatal stage. -/
theorem C9_fatal_bootstrap_witness :
    (provider_set_session
      { sessionFailure := some { kind := "ProfileNotFound", msg := "bad profile" },
        getCallerIdentity := .error { kind := "x", msg := "y" },
        stsAssumeRole := fun _ => .error { kind := "x", msg := "y" },
        describeAccount := .error { kind := "x", msg := "y" },
        listTagsForResource := .ok [],
        sessionRegionName := none }
      { input_profile := some "default", input_role := none,
        input_session_duration := none, input_external_id := none,
        input_regions := none, organizations_role_arn := none } =
      .error { kind := "ProfileNotFound", msg := "bad profile" }) ∧
    (provider_set_session
      { sessionFailure := none,
        getCallerIdentity :=
          .error { kind := "ClientError", msg := "InvalidClientTokenId" },
        stsAssumeRole := fun _ => .error { kind := "x", msg := "y" },
        describeAccount := .error { kind := "x", msg := "y" },
        listTagsForResource := .ok [],
        sessionRegionName := none }
      { input_profile := some "default", input_role := none,
        input_session_duration := none, input_external_id := none,
        input_regions := none, organizations_role_arn := none } =
      .error { kind := "ClientError", msg := "InvalidClientTokenId" }) ∧
    (provider_set_session
      { sessionFailure := none,
        getCallerIdentity := .ok
          { UserId := "AIDA", Account := "111122223333",
            Arn := "arn:aws:iam::111122223333:user/alice" },
        stsAssumeRole := fun _ =>
          .error { kind := "AccessDenied", msg := "not authorized" },
        describeAccount := .error { kind := "x", msg := "y" },
        listTagsForResource := .ok [],
        sessionRegionName := none }
      { input_profile := some "default", input_role := some
          "arn:aws:iam::222233334444:role/workload",
        input_session_duration := some 3600, input_external_id := none,
        input_regions := none, organizations_role_arn := none } =
      .error { kind := "AccessDenied", msg := "not authorized" }) := by
  refine ⟨?_, ?_, ?_⟩
  · exact (C9_fatal_bootstrap _ _).1
      { kind := "ProfileNotFound", msg := "bad profile" } rfl
  · exact (C9_fatal_bootstrap _ _).2.1
      { kind := "ClientError", msg := "InvalidClientTokenId" } rfl rfl
  · exact (C9_fatal_bootstrap _ _).2.2.2.2
      { kind := "AccessDenied", msg := "not authorized" }
      { UserId := "AIDA", Account := "111122223333",
        Arn := "arn:aws:iam::111122223333:user/alice" }
      { partition := "aws", account_id := "222233334444" }
      rfl rfl rfl rfl rfl rfl

/-- C7: if no workload role is configured, the audit session of the returned
context is the base (original) session and its account id and partition are the
base identity's; if a workload role is configured and the whole bootstrap
succeeds, the audit session is the freshly built assumed-role session --
distinct from the base session -- and the context's account id and partition
are the ones parsed from the workload role's ARN. -/
theorem C7_audit_attribution (env : AwsEnv) (a : ProviderArgs)
    (info : AWS_Audit_Info) (h : provider_set_session env a = .ok info) :
    (optTruthy a.input_role = false →
      info.audit_session = info.original_session ∧
      ∀ ci, env.getCallerIdentity = .ok ci →
        info.audited_account = ci.Account ∧
        info.audited_partition = arnPartition ci.Arn) ∧
    (optTruthy a.input_role = true →
      info.audit_session ≠ info.original_session ∧
      ∀ r p, a.input_role = some r → arn_parsing r = .ok p →
        info.audited_account = p.account_id ∧
        info.audited_partition = p.partition) := by
  cases hsf : env.sessionFailure with
  | some e => simp [provider_set_session, set_session, hsf] at h
  | none =>
  cases hci : env.getCallerIdentity with
  | error e =>
    simp [provider_set_session, set_session, hsf, validate_credentials, hci] at h
  | ok ci =>
  cases ho : orgStep env a with
  | error e =>
    simp [provider_set_session, set_session, hsf, validate_credentials, hci,
      ho] at h
  | ok pr =>
  obtain ⟨om, ri₁⟩ := pr
  cases htr : optTruthy a.input_role with
  | false =>
    have hrs : roleStep env a ri₁ = .ok (none, ri₁) := by
      simp [roleStep, htr]
    simp only [provider_set_session, set_session, hsf, validate_credentials,
      hci, ho, hrs] at h
    rw [Except.ok.injEq] at h
    subst h
    refine ⟨?_, ?_⟩
    · intro _
      refine ⟨rfl, ?_⟩
      intro ci₂ hci₂
      injection hci₂ with he
      subst he
      exact ⟨rfl, rfl⟩
    · intro hcontra
      simp at hcontra
  | true =>
    cases harn : arn_parsing (a.input_role.getD "") with
    | error e =>
      have hrs : roleStep env a ri₁ = .error e := by
        simp [roleStep, htr, harn]
      simp [provider_set_session, set_session, hsf, validate_credentials, hci,
        ho, hrs] at h
    | ok p =>
      cases hsts : env.stsAssumeRole (assumeRoleRequest
          { role_arn := a.input_role,
            session_duration := a.input_session_duration,
            external_id := a.input_external_id }) with
      | error e =>
        have hrs : roleStep env a ri₁ = .error e := by
          simp [roleStep, htr, harn, assume_role, hsts]
        simp [provider_set_session, set_session, hsf, validate_credentials,
          hci, ho, hrs] at h
      | ok resp =>
        have hrs : roleStep env a ri₁ = .ok (some
            (Session.assumed
              { aws_access_key_id := resp.AccessKeyId,
                aws_secret_access_key := resp.SecretAccessKey,
                aws_session_token := resp.SessionToken,
                expiration := resp.Expiration } none a.input_profile, p,
              { aws_access_key_id := resp.AccessKeyId,
                aws_secret_access_key := resp.SecretAccessKey,
                aws_session_token := resp.SessionToken,
                expiration := resp.Expiration }),
            { role_arn := a.input_role,
              session_duration := a.input_session_duration,
              external_id := a.input_external_id }) := by
          simp [roleStep, htr, harn, assume_role, hsts, set_session, hsf]
        simp only [provider_set_session, set_session, hsf,
          validate_credentials, hci, ho, hrs] at h
        rw [Except.ok.injEq] at h
        subst h
        refine ⟨?_, ?_⟩
        · intro hcontra
          simp at hcontra
        · intro _
          refine ⟨by simp, ?_⟩
          intro r p₂ hr hp₂
          rw [hr] at harn
          simp only [Option.getD_some] at harn
          rw [harn] at hp₂
          injection hp₂ with he
          subst he
          exact ⟨rfl, rfl⟩

/-- Witness for C7: a concrete run without a workload role (audit session equals
the base session and attribution is the base identity's) and one with a workload
role for account 222233334444 (audit session differs from the base session and
attribution is the role's). -/
theorem C7_audit_attribution_witness :
    (∀ info, provider_set_session
      { sessionFailure := none,
        getCallerIdentity := .ok
          { UserId := "AIDA", Account := "111122223333",
            Arn := "arn:aws:iam::111122223333:user/alice" },
        stsAssumeRole := fun _ => .ok
          { AccessKeyId := "AK", SecretAccessKey := "SK",
            SessionToken := "TK", Expiration := 99 },
        describeAccount := .error { kind := "x", msg := "y" },
        listTagsForResource := .ok [],
        sessionRegionName := some "eu-west-1" }
      { input_profile := some "default", input_role := none,
        input_session_duration := none, input_external_id := none,
        input_regions := none, organizations_role_arn := none } = .ok info →
      info.audit_session = info.original_session ∧
        info.audited_account = "111122223333") ∧
    (∀ info, provider_set_session
      { sessionFailure := none,
        getCallerIdentity := .ok
          { UserId := "AIDA", Account := "111122223333",
            Arn := "arn:aws:iam::111122223333:user/alice" },
        stsAssumeRole := fun _ => .ok
          { AccessKeyId := "AK", SecretAccessKey := "SK",
            SessionToken := "TK", Expiration := 99 },
        describeAccount := .error { kind := "x", msg := "y" },
        listTagsForResource := .ok [],
        sessionRegionName := some "eu-west-1" }
      { input_profile := some "default",
        input_role := some "arn:aws:iam::222233334444:role/workload",
        input_session_duration := some 3600, input_external_id := none,
        input_regions := none, organizations_role_arn := none } = .ok info →
      info.audit_session ≠ info.original_session ∧
        info.audited_account = "222233334444") := by
  constructor
  · intro info h
    have hc := (C7_audit_attribution _ _ info h).1 (by decide)
    refine ⟨hc.1, ?_⟩
    exact (hc.2 _ rfl).1
  · intro info h
    have hc := (C7_audit_attribution _ _ info h).2 (by decide)
    refine ⟨hc.1, ?_⟩
    exact (hc.2 "arn:aws:iam::222233334444:role/workload"
      { partition := "aws", account_id := "222233334444" } rfl rfl).1

/-- C3: running the reconciliation a second time, with the same current
findings, against the store state produced by a first run whose submissions all
succeeded, archives zero additional findings: each per-region query selects only
ACTIVE findings, and everything the first run left ACTIVE for a queried region
carries an identifier among that group's current findings. -/
theorem C3_reconcile_idempotent (env : HubEnv) (acct now now₂ : String)
    (store : Store) (current : List AsffFinding)
    (hok : successImports env) :
    archivedOfRun (resolve_security_hub_previous_findings env acct now₂
      (resolve_security_hub_previous_findings env acct now store current).2
      current).1 = [] := by
  have hP : ∀ g ∈ groupByArn (sortByArn current),
      hubEnabled env (regionOfArn (groupArn g)) = true →
      ∀ f ∈ (resolve_security_hub_previous_findings env acct now store
        current).2,
        matchesFilter acct (regionOfArn (groupArn g)) f = true →
        f.Id ∈ g.map (fun x => x.Id) := by
    intro g hg hhub f hf hmf
    have hact := matchesFilter_active hmf
    obtain ⟨-, hall⟩ := active_mem_runGroups hok
      (groupByArn (sortByArn current)) store f hf hact
    exact hall g hg hhub hmf
  obtain ⟨-, hta⟩ := runGroups_noop env acct now₂ (groupByArn (sortByArn current))
    (resolve_security_hub_previous_findings env acct now store current).2 hP
  unfold archivedOfRun
  rw [List.flatten_eq_nil_iff]
  intro l hl
  obtain ⟨res, hres, rfl⟩ := List.mem_map.mp hl
  exact hta res hres

/-- Witness for C3: a concrete store with a stale finding f2; the first run
archives it, the second run against the resulting store archives nothing. -/
theorem C3_reconcile_idempotent_witness :
    archivedOfRun (resolve_security_hub_previous_findings
      (⟨fun _ => .ok (), fun _ => true,
        fun _ => { FailedCount := 0, FailedFindings := [] }⟩ : HubEnv)
      "111" "T2"
      (resolve_security_hub_previous_findings
        (⟨fun _ => .ok (), fun _ => true,
          fun _ => { FailedCount := 0, FailedFindings := [] }⟩ : HubEnv)
        "111" "T1"
        [{ Id := "f1", ProductArn := "pa", ProductName := "Prowler",
           RecordState := "ACTIVE", AwsAccountId := "111",
           Region := "us-east-1", UpdatedAt := "t0" },
         { Id := "f2", ProductArn := "pa", ProductName := "Prowler",
           RecordState := "ACTIVE", AwsAccountId := "111",
           Region := "us-east-1", UpdatedAt := "t0" }]
        [{ ProductArn := "arn:aws:securityhub:us-east-1::product/prowler/prowler",
           Id := "f1" }]).2
      [{ ProductArn := "arn:aws:securityhub:us-east-1::product/prowler/prowler",
         Id := "f1" }]).1 = [] :=
  C3_reconcile_idempotent
    (⟨fun _ => .ok (), fun _ => true,
      fun _ => { FailedCount := 0, FailedFindings := [] }⟩ : HubEnv)
    "111" "T1" "T2"
    [{ Id := "f1", ProductArn := "pa", ProductName := "Prowler",
       RecordState := "ACTIVE", AwsAccountId := "111",
       Region := "us-east-1", UpdatedAt := "t0" },
     { Id := "f2", ProductArn := "pa", ProductName := "Prowler",
       RecordState := "ACTIVE", AwsAccountId := "111",
       Region := "us-east-1", UpdatedAt := "t0" }]
    [{ ProductArn := "arn:aws:securityhub:us-east-1::product/prowler/prowler",
       Id := "f1" }]
    (fun _ => rfl)

set_option maxRecDepth 10000 in
/-- C4: the reconciliation batching splits any archival list into consecutive
slices of at most 100 findings whose concatenation, in order, is the original
list; every batch a run ever submits has at most 100 findings; and a list of
250 findings yields exactly the batch sizes 100, 100, 50. -/
theorem C4_batching (toArch : List SHFinding) :
    (∀ b ∈ chunksOf 100 toArch, b.length ≤ 100) ∧
    (chunksOf 100 toArch).flatten = toArch ∧
    (∀ (env : HubEnv) (acct now : String) (store : Store)
      (gs : List (List AsffFinding)),
      ∀ res ∈ (runGroups env acct now store gs).1, ∀ b ∈ res.submitted,
        b.length ≤ 100) ∧
    (chunksOf 100 (List.replicate 250
      ({ Id := "x", ProductArn := "", ProductName := "", RecordState := "",
         AwsAccountId := "", Region := "", UpdatedAt := "" } : SHFinding))).map
      List.length = [100, 100, 50] := by
  refine ⟨fun b hb => length_le_of_mem_chunksOf hb,
    chunksOf_flatten 100 (by norm_num) toArch, ?_, by decide⟩
  intro env acct now store gs res hres b hb
  obtain ⟨g, store₂, -, rfl⟩ := mem_runGroups_exists env acct now gs store res hres
  cases hd : env.describeHub (regionOfArn (groupArn g)) with
  | error e =>
    rw [(processGroup_hub_false_shape acct now store₂ g hd).2.1] at hb
    cases hb
  | ok u =>
    have hsub : (processGroup env acct now store₂ g).1.submitted =
        (submitBatches env store₂ (chunksOf 100 (findingsToArchive acct
          (regionOfArn (groupArn g)) now (g.map (fun f => f.Id))
          store₂))).submitted := by
      simp [processGroup, hd]
    rw [hsub] at hb
    exact length_le_of_mem_chunksOf (mem_submitted_submitBatches env _ _ _ hb)

set_option maxRecDepth 10000 in
/-- Witness for C4 at a concrete one-element archival list. -/
theorem C4_batching_witness :
    ([(⟨"x", "", "", "", "", "", ""⟩ : SHFinding)].length ≤ 100) ∧
    ((chunksOf 100 [(⟨"x", "", "", "", "", "", ""⟩ : SHFinding)]).flatten =
      [(⟨"x", "", "", "", "", "", ""⟩ : SHFinding)]) ∧
    ((chunksOf 100 (List.replicate 250
      (⟨"x", "", "", "", "", "", ""⟩ : SHFinding))).map
      List.length = [100, 100, 50]) :=
  ⟨(C4_batching [⟨"x", "", "", "", "", "", ""⟩]).1 _ (by decide),
   (C4_batching [⟨"x", "", "", "", "", "", ""⟩]).2.1,
   (C4_batching []).2.2.2⟩

/-- C5: with a well-formed import endpoint, every group of the run is processed
(one result per group, so a failure in one region never swallows the others); a
batch failure does not abort the remaining batches of its region (the submitted
batches are always exactly all the chunks of the region's archival list); every
failing batch gets its error -- the first failed finding's code and message --
into that region's log; and a region whose hub probe fails only logs that error
and submits nothing, the remaining results being unaffected. -/
theorem C5_best_effort (env : HubEnv) (acct now : String) (store : Store)
    (current : List AsffFinding) (hwf : wfImports env) :
    ((resolve_security_hub_previous_findings env acct now store
        current).1.length = (groupByArn (sortByArn current)).length) ∧
    (∀ res ∈ (resolve_security_hub_previous_findings env acct now store
        current).1, res.submitted = chunksOf 100 res.toArchive) ∧
    (∀ res ∈ (resolve_security_hub_previous_findings env acct now store
        current).1, ∀ b ∈ res.submitted, ∀ fi fs,
      (env.batchImport b).FailedFindings = fi :: fs →
      0 < (env.batchImport b).FailedCount →
      LogEntry.batchFailed fi.ErrorCode fi.ErrorMessage ∈ res.logs) ∧
    (∀ res ∈ (resolve_security_hub_previous_findings env acct now store
        current).1, res.hubOk = false →
      res.submitted = [] ∧ ∃ e, env.describeHub res.region = .error e ∧
        res.logs = [.regionError e.kind e.msg res.region]) := by
  refine ⟨runGroups_length env acct now _ store, ?_, ?_, ?_⟩
  · intro res hres
    obtain ⟨g, store₂, -, rfl⟩ :=
      mem_runGroups_exists env acct now _ store res hres
    exact processGroup_submitted_wf acct now hwf store₂ g
  · intro res hres
    obtain ⟨g, store₂, -, rfl⟩ :=
      mem_runGroups_exists env acct now _ store res hres
    exact processGroup_batch_log acct now store₂ g
  · intro res hres hfalse
    obtain ⟨g, store₂, -, rfl⟩ :=
      mem_runGroups_exists env acct now _ store res hres
    cases hd : env.describeHub (regionOfArn (groupArn g)) with
    | ok u =>
      have : (processGroup env acct now store₂ g).1.hubOk = true := by
        simp [processGroup, hd]
      rw [this] at hfalse
      cases hfalse
    | error e =>
      obtain ⟨hlogs, hsub, hregion⟩ :=
        processGroup_hub_false_shape acct now store₂ g hd
      exact ⟨hsub, e, by rw [hregion]; exact hd, by rw [hlogs, hregion]⟩

set_option maxRecDepth 10000 in
/-- Witness for C5: a run whose single batch import fails; every group is still
processed and the failing region's submitted batches are exactly the chunks of
its archival list. -/
theorem C5_best_effort_witness :
    ((resolve_security_hub_previous_findings
      (⟨fun _ => .ok (), fun _ => true,
        fun _ => ⟨1, [⟨"f2", "InvalidInput", "bad"⟩]⟩⟩ : HubEnv)
      "111" "T"
      [(⟨"f1", "pa", "Prowler", "ACTIVE", "111", "us-east-1", "t0"⟩ : SHFinding),
       (⟨"f2", "pa", "Prowler", "ACTIVE", "111", "us-east-1", "t0"⟩ : SHFinding)]
      [(⟨"arn:aws:securityhub:us-east-1::product/prowler/prowler",
        "f1"⟩ : AsffFinding)]).1.length =
      (groupByArn (sortByArn
        [(⟨"arn:aws:securityhub:us-east-1::product/prowler/prowler",
          "f1"⟩ : AsffFinding)])).length) ∧
    ((⟨"us-east-1", true, ["f1"], [⟨"f2", "pa", "Prowler", "ARCHIVED", "111", "us-east-1", "T"⟩], [[⟨"f2", "pa", "Prowler", "ARCHIVED", "111", "us-east-1", "T"⟩]], [LogEntry.batchFailed "InvalidInput" "bad"]⟩ : GroupResult).submitted =
      chunksOf 100 ((⟨"us-east-1", true, ["f1"], [⟨"f2", "pa", "Prowler", "ARCHIVED", "111", "us-east-1", "T"⟩], [[⟨"f2", "pa", "Prowler", "ARCHIVED", "111", "us-east-1", "T"⟩]], [LogEntry.batchFailed "InvalidInput" "bad"]⟩ : GroupResult)).toArchive) := by
  constructor
  · exact (C5_best_effort
      (⟨fun _ => .ok (), fun _ => true,
        fun _ => ⟨1, [⟨"f2", "InvalidInput", "bad"⟩]⟩⟩ : HubEnv)
      "111" "T"
      [(⟨"f1", "pa", "Prowler", "ACTIVE", "111", "us-east-1", "t0"⟩ : SHFinding),
       (⟨"f2", "pa", "Prowler", "ACTIVE", "111", "us-east-1", "t0"⟩ : SHFinding)]
      [(⟨"arn:aws:securityhub:us-east-1::product/prowler/prowler",
        "f1"⟩ : AsffFinding)]
      (fun b _ => by simp)).1
  · exact (C5_best_effort
      (⟨fun _ => .ok (), fun _ => true,
        fun _ => ⟨1, [⟨"f2", "InvalidInput", "bad"⟩]⟩⟩ : HubEnv)
      "111" "T"
      [(⟨"f1", "pa", "Prowler", "ACTIVE", "111", "us-east-1", "t0"⟩ : SHFinding),
       (⟨"f2", "pa", "Prowler", "ACTIVE", "111", "us-east-1", "t0"⟩ : SHFinding)]
      [(⟨"arn:aws:securityhub:us-east-1::product/prowler/prowler",
        "f1"⟩ : AsffFinding)]
      (fun b _ => by simp)).2.1 _ (by decide)

set_option maxRecDepth 10000 in
/-- C2 counterexample: two current findings with distinct product-origin
identifiers whose 4th colon-delimited segment is the same region `r`.  The code
groups by `ProductArn`, not by region, so in one run the store is queried twice
for region `r` -- refuting the claim's "for each region with at least one
current finding the store is queried exactly once". -/
theorem C2_region_grouping_counterexample :
    ((queriedRegions (resolve_security_hub_previous_findings
      (⟨fun _ => .ok (), fun _ => true, fun _ => ⟨0, []⟩⟩ : HubEnv)
      "111111111111" "T" []
      [(⟨"a:b:c:r:x", "f1"⟩ : AsffFinding),
       (⟨"a:b:c:r:y", "f2"⟩ : AsffFinding)]).1).count "r" = 2) ∧
    ¬ ((queriedRegions (resolve_security_hub_previous_findings
      (⟨fun _ => .ok (), fun _ => true, fun _ => ⟨0, []⟩⟩ : HubEnv)
      "111111111111" "T" []
      [(⟨"a:b:c:r:x", "f1"⟩ : AsffFinding),
       (⟨"a:b:c:r:y", "f2"⟩ : AsffFinding)]).1).count "r" = 1) := by
  decide

/-- C2 (amended): the current run's findings are grouped by product-origin
identifier (`ProductArn`), each group's region being parsed as the 4th
colon-delimited segment of the group's `ProductArn`, with one store query per
group.  When distinct ProductArns of the run always carry distinct regions (as
holds for this tool's one product ARN per region), this coincides with per-region
grouping: a region is queried iff its hub check passes and some current finding
parses to it, each such region is queried exactly once, and -- provided the
stored findings have pairwise distinct identifiers and submissions succeed --
the region's archived set is exactly the stored ACTIVE Prowler findings of the
audited account and region whose identifier is not among that region's current
findings' identifiers. -/
theorem C2_product_arn_grouping (env : HubEnv) (acct now : String)
    (store : Store) (current : List AsffFinding)
    (hok : successImports env)
    (hnodup : (store.map (fun f => f.Id)).Nodup)
    (hreg : ∀ f₁ ∈ current, ∀ f₂ ∈ current,
      regionOfArn f₁.ProductArn = regionOfArn f₂.ProductArn →
      f₁.ProductArn = f₂.ProductArn) :
    (∀ r, r ∈ queriedRegions (resolve_security_hub_previous_findings env acct
        now store current).1 ↔
      (hubEnabled env r = true ∧ ∃ f ∈ current, regionOfArn f.ProductArn = r)) ∧
    (∀ r ∈ queriedRegions (resolve_security_hub_previous_findings env acct now
        store current).1,
      (queriedRegions (resolve_security_hub_previous_findings env acct now
        store current).1).count r = 1) ∧
    (∀ res ∈ (resolve_security_hub_previous_findings env acct now store
        current).1, res.hubOk = true →
      res.toArchive = ((store.filter (matchesFilter acct res.region)).filter
        (fun f => !((regionIds res.region current).contains f.Id))).map
          (archiveFinding now)) := by
  refine ⟨?_, ?_, ?_⟩
  · intro r
    unfold resolve_security_hub_previous_findings
    rw [mem_queriedRegions_runGroups]
    constructor
    · rintro ⟨hh, g, hg, rfl⟩
      obtain ⟨y, hy, hk⟩ := exists_key_elem hg
      exact ⟨hh, y, mem_sortByArn.mp hy, by rw [hk]⟩
    · rintro ⟨hh, f, hf, rfl⟩
      refine ⟨hh, ?_⟩
      obtain ⟨g, hg, hfg⟩ := exists_group_of_mem (mem_sortByArn.mpr hf)
      have hkey := key_of_mem_groupByArn (sortByArn current).length _ le_rfl
        g hg f hfg
      exact ⟨g, hg, by rw [← hkey]⟩
  · intro r hr
    refine List.count_eq_one_of_mem ?_ hr
    unfold resolve_security_hub_previous_findings
    exact nodup_queriedRegions env acct now _ store (groups_regions_nodup hreg)
  · intro res hres hhub
    unfold resolve_security_hub_previous_findings at hres
    obtain ⟨g, hg, hregeq, hids, hta⟩ := toArchive_runGroups env acct now hok
      _ store hnodup (groups_regions_pairwise_ne hreg) res hres hhub
    rw [hta]
    show findingsToArchive acct res.region now res.currentIds store =
      findingsToArchive acct res.region now (regionIds res.region current) store
    apply findingsToArchive_ids_congr
    intro i
    rw [hids, hregeq]
    exact currentIds_mem_iff hreg hg i

set_option maxRecDepth 10000 in
/-- Witness for C2 (amended): the specification's scenario -- current findings
`f1` in us-east-1, stored active findings `f1` and `f2` -- where us-east-1 is
queried exactly once. -/
theorem C2_product_arn_grouping_witness :
    (queriedRegions (resolve_security_hub_previous_findings
      (⟨fun _ => .ok (), fun _ => true, fun _ => ⟨0, []⟩⟩ : HubEnv)
      "111" "T"
      [(⟨"f1", "pa", "Prowler", "ACTIVE", "111", "us-east-1", "t0"⟩ : SHFinding),
       (⟨"f2", "pa", "Prowler", "ACTIVE", "111", "us-east-1", "t0"⟩ : SHFinding)]
      [(⟨"arn:aws:securityhub:us-east-1::product/prowler/prowler",
        "f1"⟩ : AsffFinding)]).1).count "us-east-1" = 1 :=
  (C2_product_arn_grouping
    (⟨fun _ => .ok (), fun _ => true, fun _ => ⟨0, []⟩⟩ : HubEnv)
    "111" "T"
    [(⟨"f1", "pa", "Prowler", "ACTIVE", "111", "us-east-1", "t0"⟩ : SHFinding),
     (⟨"f2", "pa", "Prowler", "ACTIVE", "111", "us-east-1", "t0"⟩ : SHFinding)]
    [(⟨"arn:aws:securityhub:us-east-1::product/prowler/prowler",
      "f1"⟩ : AsffFinding)]
    (fun _ => rfl) (by decide) (by decide)).2.1 "us-east-1" (by decide)

/-- C10: whenever a batch import reports a positive failed count, exactly one
error entry is produced for that batch and it carries only the first failed
finding's error code and message: the submission loop's log is exactly the
per-batch `failedBatchLog` entries (one per failing batch, none otherwise), and
`send_to_security_hub` behaves the same for its single-finding batch; the
details of any further failed findings appear nowhere. -/
theorem C10_first_failed_only (env : HubEnv) (hwf : wfImports env) :
    (∀ (store : Store) (batches : List (List SHFinding)),
      (submitBatches env store batches).logs =
        batches.filterMap (fun b => failedBatchLog (env.batchImport b))) ∧
    (∀ region finding, hubEnabled env region = true →
      env.prowlerIntegration region = true →
      send_to_security_hub env region finding =
        (failedBatchLog (env.batchImport [finding])).toList) := by
  constructor
  · intro store batches
    exact submitBatches_logs env hwf batches store
  · intro region finding hh hpi
    unfold send_to_security_hub
    rw [hubEnabled_true_iff.mp hh]
    simp only [hpi]
    by_cases hc : 0 < (env.batchImport [finding]).FailedCount
    · cases hff : (env.batchImport [finding]).FailedFindings with
      | nil => exact absurd hff (hwf _ hc)
      | cons fi fs => simp [failedBatchLog, hc, hff]
    · simp [failedBatchLog, hc]

/-- Witness for C10: a batch whose import reports two failed findings; the log
holds exactly one entry, carrying the first failed finding's code and message,
and nothing mentions the second. -/
theorem C10_first_failed_only_witness :
    ((submitBatches (⟨fun _ => .ok (), fun _ => true,
      fun _ => ⟨2, [⟨"fA", "E1", "M1"⟩, ⟨"fB", "E2", "M2"⟩]⟩⟩ : HubEnv) []
      [[(⟨"fA", "", "", "", "", "", ""⟩ : SHFinding)]]).logs =
      [[(⟨"fA", "", "", "", "", "", ""⟩ : SHFinding)]].filterMap
        (fun b => failedBatchLog ((⟨fun _ => .ok (), fun _ => true,
          fun _ => ⟨2, [⟨"fA", "E1", "M1"⟩,
            ⟨"fB", "E2", "M2"⟩]⟩⟩ : HubEnv).batchImport b))) ∧
    ([[(⟨"fA", "", "", "", "", "", ""⟩ : SHFinding)]].filterMap
      (fun b => failedBatchLog ((⟨fun _ => .ok (), fun _ => true,
        fun _ => ⟨2, [⟨"fA", "E1", "M1"⟩,
          ⟨"fB", "E2", "M2"⟩]⟩⟩ : HubEnv).batchImport b)) =
      [LogEntry.batchFailed "E1" "M1"]) := by
  constructor
  · exact (C10_first_failed_only
      (⟨fun _ => .ok (), fun _ => true,
        fun _ => ⟨2, [⟨"fA", "E1", "M1"⟩, ⟨"fB", "E2", "M2"⟩]⟩⟩ : HubEnv)
      (fun b h => by simp)).1 []
      [[(⟨"fA", "", "", "", "", "", ""⟩ : SHFinding)]]
  · decide

end Prowler
